import Mathlib

/-!
Verification of the rust-router gateway against its specification.

This file shallowly embeds the relevant Rust source of the repository:

* `src/gateway/src/p2p/grpc_handler.rs` — the gRPC-over-DataChannel frame
  codec (`parse_grpc_frames`, `parse_request`, `encode_grpc_data_frame`,
  `encode_trailer_frame`, `encode_response`, `process_request`,
  `process_request_with_reflection`, `handle_file_containing_symbol`);
* `src/gateway/src/job/queue.rs` and `src/gateway/src/job/state.rs` — the
  job queue and per-job state (`set_current_job`, `start_next_job`,
  `cleanup_old_jobs`, `update_overall_status`, …);
* `src/gateway/src/p2p/credentials.rs` — the ENV-format credential file
  (`save`, `parse_env_format`).

Bytes are modelled as `Nat` (with explicit `% 2^32` where the Rust code
casts to `u32`); byte buffers as `List Nat`; Rust `String` values either
as Lean `String` (request paths, header values, error messages) or as
`List Char` (the credential file, where character-level trimming matters).
Hash maps are modelled as association lists.  Fallible Rust functions
return `Except`.  Foreign library calls that are not part of this
repository (UTF-8 validation in `String::from_utf8`, `serde_json`,
`prost` protobuf decoding, base64) are abstracted as function
parameters; everything written in the repository itself is translated
directly from the source.
-/

deriving instance DecidableEq for Except

namespace RustRouter

/-! # Definitions -/

/-! ## Byte-level helpers (big-endian u32, as in `u32::from_be_bytes` /
`u32::to_be_bytes` with the `as u32` cast) -/

/-- `u32::to_be_bytes` applied to `n as u32` (the Rust casts truncate
modulo `2^32`). -/
def be32 (n : Nat) : List Nat :=
  [n / 2 ^ 24 % 256, n / 2 ^ 16 % 256, n / 2 ^ 8 % 256, n % 256]

/-- `u32::from_be_bytes [a, b, c, d]`. -/
def fromBe4 (a b c d : Nat) : Nat :=
  ((a * 256 + b) * 256 + c) * 256 + d

/-! ## gRPC status codes (`StatusCode` in `grpc_handler.rs`) -/

inductive StatusCode where
  | Ok | Cancelled | Unknown | InvalidArgument | DeadlineExceeded | NotFound
  | AlreadyExists | PermissionDenied | ResourceExhausted | FailedPrecondition
  | Aborted | OutOfRange | Unimplemented | Internal | Unavailable | DataLoss
  | Unauthenticated
  deriving DecidableEq, Repr

/-- The `#[repr(u32)]` discriminant of a status code (`status as u32`). -/
def StatusCode.toCode : StatusCode → Nat
  | .Ok => 0 | .Cancelled => 1 | .Unknown => 2 | .InvalidArgument => 3
  | .DeadlineExceeded => 4 | .NotFound => 5 | .AlreadyExists => 6
  | .PermissionDenied => 7 | .ResourceExhausted => 8 | .FailedPrecondition => 9
  | .Aborted => 10 | .OutOfRange => 11 | .Unimplemented => 12 | .Internal => 13
  | .Unavailable => 14 | .DataLoss => 15 | .Unauthenticated => 16

/-! ## `parse_grpc_frames`

The Rust function is a `while` loop over an offset into the byte slice.
We embed it as a fuel-indexed structural recursion; `data.length + 1`
units of fuel always suffice because every loop iteration either stops
or consumes at least five bytes. -/

def parseGrpcFramesAux : Nat → List Nat → List (List Nat)
  | 0, _ => []
  | fuel + 1, data =>
    if 5 ≤ data.length then
      let flags := data.headI
      let msgLen := fromBe4 (data.getD 1 0) (data.getD 2 0) (data.getD 3 0) (data.getD 4 0)
      let rest := data.drop 5
      if msgLen > rest.length then
        -- Incomplete frame, take what we have
        if flags = 0 ∧ rest.length > 0 then [rest] else []
      else
        if flags = 0 then rest.take msgLen :: parseGrpcFramesAux fuel (rest.drop msgLen)
        else parseGrpcFramesAux fuel (rest.drop msgLen)
    else []

/-- `parse_grpc_frames` from `grpc_handler.rs`: returns the payloads of
the data frames (`flags = 0x00`), skipping trailer frames. -/
def parse_grpc_frames (data : List Nat) : List (List Nat) :=
  parseGrpcFramesAux (data.length + 1) data

/-! ## Frame encoders -/

/-- `encode_grpc_data_frame`: flags `0x00`, big-endian u32 length, payload. -/
def encode_grpc_data_frame (message : List Nat) : List Nat :=
  0 :: be32 message.length ++ message

/-- UTF-8 encoding of one character (the Rust side stores all text as
UTF-8; `str::as_bytes` exposes exactly these bytes). -/
def utf8EncodeChar (c : Char) : List Nat :=
  let n := c.toNat
  if n < 0x80 then [n]
  else if n < 0x800 then [0xC0 + n / 64, 0x80 + n % 64]
  else if n < 0x10000 then [0xE0 + n / 4096, 0x80 + n / 64 % 64, 0x80 + n % 64]
  else [0xF0 + n / 262144, 0x80 + n / 4096 % 64, 0x80 + n / 64 % 64, 0x80 + n % 64]

/-- `str::as_bytes` for a Lean-modelled string. -/
def strBytes (s : String) : List Nat :=
  (s.data.map utf8EncodeChar).flatten

/-- The trailer text built by `encode_trailer_frame` / `encode_response`:
`"grpc-status: <code>\r\n"` plus an optional `"grpc-message: <msg>\r\n"`
(the Rust code joins the lines with `"\r\n"` and appends a final
`"\r\n"`). -/
def trailerText (status : StatusCode) (statusMessage : Option String) : String :=
  match statusMessage with
  | some msg => "grpc-status: " ++ toString status.toCode ++ "\r\n" ++
      "grpc-message: " ++ msg ++ "\r\n"
  | none => "grpc-status: " ++ toString status.toCode ++ "\r\n"

/-- `encode_trailer_frame`: flags `0x01`, big-endian u32 length, trailer text. -/
def encode_trailer_frame (status : StatusCode) (statusMessage : Option String) : List Nat :=
  1 :: be32 (strBytes (trailerText status statusMessage)).length ++
    strBytes (trailerText status statusMessage)

/-! ## `parse_request`

`parse_request` returns `Result<GrpcRequest, String>` in Rust.  The
embedding additionally tracks the places where the Rust code indexes
into the byte slice: every slice access goes through `byteE` / `sliceE`,
which produce the distinguished error `PErr.oob` exactly when the Rust
indexing would panic.  Claim C9 proves `oob` unreachable. -/

/-- A parse failure: one of the source's error strings, or an
out-of-bounds slice access (a Rust panic). -/
inductive PErr where
  | err (msg : String)
  | oob
  deriving DecidableEq, Repr

/-- `data[i]`, erroring with `.oob` exactly when Rust would panic. -/
def byteE (data : List Nat) (i : Nat) : Except PErr Nat :=
  match data[i]? with
  | some b => .ok b
  | none => .error .oob

/-- `&data[start .. start + len]`, erroring with `.oob` exactly when
Rust slice indexing would panic. -/
def sliceE (data : List Nat) (start len : Nat) : Except PErr (List Nat) :=
  if start + len ≤ data.length then .ok ((data.drop start).take len)
  else .error .oob

/-- `u32::from_be_bytes([data[off], data[off+1], data[off+2], data[off+3]])`. -/
def read4 (data : List Nat) (off : Nat) : Except PErr Nat :=
  match byteE data off, byteE data (off + 1), byteE data (off + 2), byteE data (off + 3) with
  | .ok a, .ok b, .ok c, .ok d => .ok (fromBe4 a b c d)
  | _, _, _, _ => .error .oob

/-- Parsed gRPC request (`GrpcRequest` in `grpc_handler.rs`).  The
`HashMap<String, String>` of headers is modelled as an association
list. -/
structure GrpcRequest where
  path : String
  headers : List (String × String)
  message : List Nat
  deriving DecidableEq, Repr

/-- The foreign library functions used by `parse_request`, abstracted:
`String::from_utf8` (returning the error's display text on failure) and
`serde_json::from_str::<HashMap<String, String>>`. -/
structure Codec where
  utf8 : List Nat → Except String String
  json : String → Except String (List (String × String))

/-- The message extraction at the end of `parse_request` (lines 186-200
of `grpc_handler.rs`): if the frames section holds at least 5 bytes and
begins with a complete data frame, its payload; otherwise empty. -/
def parseFirstDataFrame (fd : List Nat) : Except PErr (List Nat) :=
  if 5 ≤ fd.length then
    match byteE fd 0, read4 fd 1 with
    | .ok flags, .ok msgLen =>
      if flags = 0 ∧ 5 + msgLen ≤ fd.length then sliceE fd 5 msgLen
      else .ok []
    | _, _ => .error .oob
  else .ok []

/-- `parse_request` with panic tracking. -/
def parse_request_chk (c : Codec) (data : List Nat) : Except PErr GrpcRequest :=
  if data.length < 8 then .error (.err "Request too short")
  else
    match read4 data 0 with
    | .error p => .error p
    | .ok path_len =>
      if 4 + path_len > data.length then
        .error (.err ("Path length " ++ toString path_len ++ " exceeds data length"))
      else
        match sliceE data 4 path_len with
        | .error p => .error p
        | .ok pathBytes =>
          match c.utf8 pathBytes with
          | .error e => .error (.err ("Invalid path UTF-8: " ++ e))
          | .ok path =>
            if 4 + path_len + 4 > data.length then
              .error (.err "Missing headers length")
            else
              match read4 data (4 + path_len) with
              | .error p => .error p
              | .ok headers_len =>
                if 4 + path_len + 4 + headers_len > data.length then
                  .error (.err ("Headers length " ++ toString headers_len ++
                    " exceeds data length"))
                else
                  match sliceE data (4 + path_len + 4) headers_len with
                  | .error p => .error p
                  | .ok hdrBytes =>
                    match c.utf8 hdrBytes with
                    | .error e => .error (.err ("Invalid headers UTF-8: " ++ e))
                    | .ok headersJson =>
                      match c.json headersJson with
                      | .error e => .error (.err ("Invalid headers JSON: " ++ e))
                      | .ok headers =>
                        match sliceE data (4 + path_len + 4 + headers_len)
                            (data.length - (4 + path_len + 4 + headers_len)) with
                        | .error p => .error p
                        | .ok framesData =>
                          match parseFirstDataFrame framesData with
                          | .error p => .error p
                          | .ok message =>
                            .ok { path := path, headers := headers, message := message }

/-- `parse_request` as the Rust caller sees it (`Result<_, String>`).
The `.oob` case is rendered with a sentinel text; claim C9 shows it is
unreachable. -/
def parse_request (c : Codec) (data : List Nat) : Except String GrpcRequest :=
  match parse_request_chk c data with
  | .ok r => .ok r
  | .error (.err s) => .error s
  | .error .oob => .error "slice index out of bounds"

/-- The message field produced by `parse_request` for a given frames
section: the payload of the *first* frame if it is a complete data
frame, otherwise empty. -/
def firstDataFramePayload (fd : List Nat) : List Nat :=
  if 5 ≤ fd.length ∧ fd.getD 0 0 = 0 ∧
      5 + fromBe4 (fd.getD 1 0) (fd.getD 2 0) (fd.getD 3 0) (fd.getD 4 0) ≤ fd.length then
    (fd.drop 5).take (fromBe4 (fd.getD 1 0) (fd.getD 2 0) (fd.getD 3 0) (fd.getD 4 0))
  else []

/-- A concrete codec for witnesses: decodes ASCII byte sequences and
accepts only the empty JSON object. -/
def asciiCodec : Codec where
  utf8 bs := if bs.all (· < 128) then .ok (String.mk (bs.map Char.ofNat))
    else .error "invalid utf-8 sequence"
  json s := if s = "\x7b\x7d" then .ok [] else .error "expected a JSON map"

/-! ## Responses and response encoding -/

/-- `GrpcResponse` from `grpc_handler.rs`. -/
structure GrpcResponse where
  headers : List (String × String)
  messages : List (List Nat)
  status : StatusCode
  status_message : Option String
  deriving DecidableEq, Repr

/-- `GrpcResponse::ok`. -/
def GrpcResponse.mkOk (message : List Nat) : GrpcResponse :=
  { headers := [], messages := [message], status := .Ok, status_message := none }

/-- `GrpcResponse::error`. -/
def GrpcResponse.mkError (status : StatusCode) (message : String) : GrpcResponse :=
  { headers := [], messages := [], status := status, status_message := some message }

/-- `GrpcResponse::unimplemented`. -/
def GrpcResponse.mkUnimplemented (method : String) : GrpcResponse :=
  GrpcResponse.mkError .Unimplemented ("Method not implemented: " ++ method)

/-- One hex digit, lower case, as emitted by `serde_json`. -/
def hexDigit (n : Nat) : Char :=
  "0123456789abcdef".data.getD n '0'

/-- JSON string escaping as performed by `serde_json` for the header
values the gateway emits. -/
def jsonEscapeChar (c : Char) : String :=
  if c = '"' then "\\\""
  else if c = '\\' then "\\\\"
  else if c = '\x08' then "\\b"
  else if c = '\x0c' then "\\f"
  else if c = '\n' then "\\n"
  else if c = '\r' then "\\r"
  else if c = '\t' then "\\t"
  else if c.toNat < 32 then
    "\\u00" ++ String.mk [hexDigit (c.toNat / 16), hexDigit (c.toNat % 16)]
  else String.singleton c

def jsonEncodeString (s : String) : String :=
  "\"" ++ String.join (s.data.map jsonEscapeChar) ++ "\""

/-- `serde_json::to_string` on the headers map (insertion order). -/
def jsonEncodeHeaders (hs : List (String × String)) : String :=
  "\x7b" ++ String.intercalate ","
    (hs.map (fun kv => jsonEncodeString kv.1 ++ ":" ++ jsonEncodeString kv.2)) ++ "\x7d"

/-- `encode_response`: headers length and JSON, one data frame per
message, then the trailer frame. -/
def encode_response (r : GrpcResponse) : List Nat :=
  be32 (strBytes (jsonEncodeHeaders r.headers)).length ++
    strBytes (jsonEncodeHeaders r.headers) ++
    (r.messages.map encode_grpc_data_frame).flatten ++
    encode_trailer_frame r.status r.status_message

/-! ## Routing and request processing -/

/-- `HashMap::get`. -/
def hmGet (hs : List (String × String)) (k : String) : Option String :=
  (hs.find? (fun p => p.1 = k)).map (fun p => p.2)

/-- `HashMap::insert` (replaces an existing binding). -/
def hmInsert (hs : List (String × String)) (k v : String) : List (String × String) :=
  if (hs.find? (fun p => p.1 = k)).isSome then
    hs.map (fun p => if p.1 = k then (k, v) else p)
  else hs ++ [(k, v)]

/-- `GrpcRouter`: registered handlers keyed by method path. -/
def GrpcRouter := List (String × (GrpcRequest → GrpcResponse))

/-- `GrpcRouter::handle`: dispatch to the registered handler, or the
`unimplemented` response. -/
def GrpcRouter.handle (router : GrpcRouter) (request : GrpcRequest) : GrpcResponse :=
  match List.find? (fun h => h.1 = request.path) router with
  | some h => h.2 request
  | none => GrpcResponse.mkUnimplemented request.path

/-- `process_request`: parse, dispatch, copy `x-request-id`, encode; on
a parse error synthesize an `Internal` error response. -/
def process_request (c : Codec) (router : GrpcRouter) (data : List Nat) : List Nat :=
  match parse_request c data with
  | .ok request =>
    let response := GrpcRouter.handle router request
    let response :=
      match hmGet request.headers "x-request-id" with
      | some request_id =>
        { response with headers := hmInsert response.headers "x-request-id" request_id }
      | none => response
    encode_response response
  | .error e => encode_response (GrpcResponse.mkError .Internal e)

/-- `encode_stream_message`: `[requestId_len(4)][requestId][flag(1)][data]`. -/
def encode_stream_message (request_id : String) (flag : Nat) (data : List Nat) : List Nat :=
  be32 (strBytes request_id).length ++ strBytes request_id ++ flag :: data

/-- Substring test on character lists (`str::contains`). -/
def listContainsSeq (pat : List Char) : List Char → Bool
  | [] => decide (pat = [])
  | c :: rest =>
    decide ((c :: rest).take pat.length = pat) || listContainsSeq pat rest

/-- `str::contains` for string patterns. -/
def strContains (s pat : String) : Bool :=
  listContainsSeq pat.data s.data

/-- `str::starts_with`. -/
def strStartsWith (s pat : String) : Bool :=
  decide (s.data.take pat.data.length = pat.data)

/-- `is_list_services_request`. -/
def is_list_services_request (path : String) : Bool :=
  path = "/grpc.reflection.v1alpha.ServerReflection/ListServices" ||
    path = "/grpc.reflection.v1.ServerReflection/ListServices"

/-- `is_file_containing_symbol_request`. -/
def is_file_containing_symbol_request (path : String) : Bool :=
  path = "/grpc.reflection.v1alpha.ServerReflection/FileContainingSymbol" ||
    path = "/grpc.reflection.v1.ServerReflection/FileContainingSymbol"

/-- Insert `x-request-id` into a response's headers (done on every path
of `process_request_with_reflection`). -/
def withReqId (r : GrpcResponse) (request_id : String) : GrpcResponse :=
  { r with headers := hmInsert r.headers "x-request-id" request_id }

/-- `GrpcProcessResult`. -/
inductive GrpcProcessResult where
  | Unary (bytes : List Nat)
  | Streaming (messages : List (List Nat))
  deriving DecidableEq, Repr

/-- `encode_streaming_response`: one DATA stream message per response
message, then one END message carrying the trailer frame. -/
def encode_streaming_response (request_id : String) (r : GrpcResponse) : GrpcProcessResult :=
  .Streaming
    ((r.messages.map (fun m => encode_stream_message request_id 0 (encode_grpc_data_frame m)))
      ++ [encode_stream_message request_id 1 (encode_trailer_frame r.status r.status_message)])

/-- The effectful collaborators of `process_request_with_reflection`,
abstracted: the tonic service bridge (`TonicServiceBridge::call`), the
two reflection handlers, and the generated v4 UUID used when the request
carries no `x-request-id`. -/
structure ReflectionDeps where
  bridge : GrpcRequest → GrpcResponse
  listServices : List Nat → GrpcResponse
  fileContainingSymbol : List Nat → List Nat → GrpcResponse
  genRequestId : String

/-- `process_request_with_reflection`. -/
def process_request_with_reflection (c : Codec) (deps : ReflectionDeps)
    (file_descriptor_set : Option (List Nat)) (data : List Nat) : GrpcProcessResult :=
  match parse_request c data with
  | .ok request =>
    let request_id := (hmGet request.headers "x-request-id").getD deps.genRequestId
    if is_list_services_request request.path then
      match file_descriptor_set with
      | some fds => .Unary (encode_response (withReqId (deps.listServices fds) request_id))
      | none => .Unary (encode_response
          (withReqId (GrpcResponse.mkError .Unimplemented "Reflection not configured")
            request_id))
    else if is_file_containing_symbol_request request.path then
      match file_descriptor_set with
      | some fds => .Unary (encode_response
          (withReqId (deps.fileContainingSymbol fds request.message) request_id))
      | none => .Unary (encode_response
          (withReqId (GrpcResponse.mkError .Unimplemented "Reflection not configured")
            request_id))
    else
      let is_streaming := strContains request.path "StreamDownload"
      let response := withReqId (deps.bridge request) request_id
      if is_streaming then
        if strStartsWith request_id "stream-" then
          encode_streaming_response request_id response
        else .Unary (encode_response response)
      else .Unary (encode_response response)
  | .error e => .Unary (encode_response (GrpcResponse.mkError .Internal e))

/-! ## Concrete inputs for counterexamples and witnesses -/

/-- A frames section holding two complete data frames with payloads
`[17]` and `[34]`. -/
def framesTwo : List Nat := [0, 0, 0, 0, 1, 17, 0, 0, 0, 0, 1, 34]

/-- A well-formed envelope (path `/a`, headers `{}`) whose frames
section is `framesTwo`. -/
def envTwoFrames : List Nat :=
  be32 2 ++ [47, 97] ++ be32 2 ++ [123, 125] ++ framesTwo

/-- A well-formed envelope with `path_len = 0` and headers `{}`. -/
def envPathLenZero : List Nat := be32 0 ++ be32 2 ++ [123, 125]

/-- Trivial reflection collaborators for witnesses. -/
def trivialDeps : ReflectionDeps where
  bridge _ := GrpcResponse.mkOk []
  listServices _ := GrpcResponse.mkOk []
  fileContainingSymbol _ _ := GrpcResponse.mkOk []
  genRequestId := "req-1"

/-! ## Job state (`src/gateway/src/job/state.rs`)

`Instant` is modelled as a `Nat` (seconds); `PathBuf` as `String`;
the `HashMap`s keyed by `user_id` as association lists. -/

/-- `JobStatus`. -/
inductive JobStatus where
  | Queued | Running | Completed | Failed
  deriving DecidableEq, Repr

/-- `AccountResult`. -/
structure AccountResult where
  user_id : String
  name : String
  status : JobStatus
  csv_path : Option String
  error_message : Option String
  deriving DecidableEq, Repr

/-- `AccountResult::new`. -/
def AccountResult.new (user_id name : String) : AccountResult :=
  { user_id := user_id, name := name, status := .Queued,
    csv_path := none, error_message := none }

/-- `AccountResult::set_running`. -/
def AccountResult.set_running (a : AccountResult) : AccountResult :=
  { a with status := .Running }

/-- `AccountResult::set_completed`. -/
def AccountResult.set_completed (a : AccountResult) (csv : String) : AccountResult :=
  { a with status := .Completed, csv_path := some csv }

/-- `AccountResult.set_failed`. -/
def AccountResult.set_failed (a : AccountResult) (e : String) : AccountResult :=
  { a with status := .Failed, error_message := some e }

/-- `JobState`. -/
structure JobState where
  job_id : String
  status : JobStatus
  accounts : List (String × AccountResult)
  account_order : List String
  passwords : List (String × String)
  created_at : Nat
  started_at : Option Nat
  current_account_index : Nat
  download_path : String
  session_folder : Option String
  headless : Bool
  last_error : Option String
  deriving DecidableEq, Repr

/-- `JobState::new`: every account starts `Queued`. -/
def JobState.new (job_id : String) (accounts : List (String × String × String))
    (download_path : String) (headless : Bool) (now : Nat) : JobState :=
  { job_id := job_id
    status := .Queued
    accounts := accounts.map (fun a => (a.1, AccountResult.new a.1 a.2.2))
    account_order := accounts.map (fun a => a.1)
    passwords := accounts.map (fun a => (a.1, a.2.1))
    created_at := now
    started_at := none
    current_account_index := 0
    download_path := download_path
    session_folder := none
    headless := headless
    last_error := none }

/-- `JobState::start`. -/
def JobState.start (j : JobState) (now : Nat) : JobState :=
  { j with status := .Running, started_at := some now }

/-- `JobState::completed_count`: accounts with status `Completed` or
`Failed`. -/
def JobState.completed_count (j : JobState) : Nat :=
  (j.accounts.filter (fun a => a.2.status = .Completed ∨ a.2.status = .Failed)).length

/-- `JobState::total_count`. -/
def JobState.total_count (j : JobState) : Nat :=
  j.accounts.length

/-- `JobState::is_complete`. -/
def JobState.is_complete (j : JobState) : Bool :=
  j.completed_count = j.total_count

/-- `JobState::update_overall_status`. -/
def JobState.update_overall_status (j : JobState) : JobState :=
  if j.is_complete then
    if j.accounts.any (fun a => a.2.status = .Failed) then
      { j with status := .Failed }
    else
      { j with status := .Completed }
  else if j.accounts.any (fun a => a.2.status = .Running) then
    { j with status := .Running }
  else j

/-! ## Job queue (`src/gateway/src/job/queue.rs`) -/

/-- `HashMap::get` on the jobs map. -/
def jqLookup (jobs : List (String × JobState)) (id : String) : Option JobState :=
  (jobs.find? (fun p => p.1 = id)).map (fun p => p.2)

/-- `HashMap::insert` on the jobs map. -/
def jqInsert (jobs : List (String × JobState)) (id : String) (job : JobState) :
    List (String × JobState) :=
  if (jobs.find? (fun p => p.1 = id)).isSome then
    jobs.map (fun p => if p.1 = id then (id, job) else p)
  else jobs ++ [(id, job)]

/-- `HashMap::get_mut` followed by a mutation: apply `f` to the entry
with the given key, leave the map unchanged when the key is absent. -/
def jqModify (jobs : List (String × JobState)) (id : String) (f : JobState → JobState) :
    List (String × JobState) :=
  jobs.map (fun p => if p.1 = id then (p.1, f p.2) else p)

/-- Mutation of one account inside a job (`get_account_result_mut`). -/
def amModify (accounts : List (String × AccountResult)) (uid : String)
    (f : AccountResult → AccountResult) : List (String × AccountResult) :=
  accounts.map (fun p => if p.1 = uid then (p.1, f p.2) else p)

/-- `JobQueue`. -/
structure JobQueue where
  jobs : List (String × JobState)
  pending : List String
  current_job_id : Option String
  deriving DecidableEq, Repr

/-- `JobQueue::new` / `Default`. -/
def JobQueue.new : JobQueue :=
  { jobs := [], pending := [], current_job_id := none }

/-- `JobQueue::create_job` (the UUID is supplied by the caller in the
model). -/
def JobQueue.create_job (q : JobQueue) (job_id : String)
    (accounts : List (String × String × String)) (download_path : String)
    (headless : Bool) (now : Nat) : JobQueue :=
  { q with
    jobs := jqInsert q.jobs job_id (JobState.new job_id accounts download_path headless now)
    pending := q.pending ++ [job_id] }

/-- `JobQueue::mark_started`. -/
def JobQueue.mark_started (q : JobQueue) (job_id : String) : JobQueue :=
  { q with pending := q.pending.filter (fun id => ¬ id = job_id) }

/-- `JobQueue::cleanup_old_jobs`: retain jobs whose age is strictly
below `max_age_secs` (`Instant` subtraction saturates at zero, like
`Nat` subtraction). -/
def JobQueue.cleanup_old_jobs (q : JobQueue) (now max_age_secs : Nat) : JobQueue :=
  { q with jobs := q.jobs.filter (fun p => now - p.2.created_at < max_age_secs) }

/-- `JobQueue::set_current_job`. -/
def JobQueue.set_current_job (q : JobQueue) (job_id : String) : JobQueue :=
  { jobs := jqModify q.jobs job_id (fun j => { j with status := .Running })
    pending := q.pending.filter (fun id => ¬ id = job_id)
    current_job_id := some job_id }

/-- `JobQueue::clear_current_job`. -/
def JobQueue.clear_current_job (q : JobQueue) : JobQueue :=
  { q with current_job_id := none }

/-- `JobQueue::has_running_job`. -/
def JobQueue.has_running_job (q : JobQueue) : Bool :=
  q.current_job_id.isSome

/-- `JobQueue::start_next_job`; also returns the started job's ID. -/
def JobQueue.start_next_job (q : JobQueue) : JobQueue × Option String :=
  if q.has_running_job then (q, none)
  else
    match q.pending.head? with
    | some job_id => (q.set_current_job job_id, some job_id)
    | none => (q, none)

/-! ## Queue operations as a trace language (claim C4)

The operations of `JobQueue` together with the per-job updates the
background executor (`process_job_in_background` in
`scraper_service.rs`) performs through `get_job_mut`. -/

inductive QOp where
  | create (job_id : String) (accounts : List (String × String × String)) (now : Nat)
  | setCurrent (job_id : String)
  | clearCurrent
  | startNext
  | markStarted (job_id : String)
  | cleanup (now max_age : Nat)
  | jobStart (job_id : String) (now : Nat)
  | acctRunning (job_id uid : String)
  | acctCompleted (job_id uid : String) (csv : String)
  | acctFailed (job_id uid : String) (e : String)
  | updateOverall (job_id : String)
  deriving DecidableEq, Repr

/-- Apply one operation to the queue. -/
def QOp.apply (q : JobQueue) : QOp → JobQueue
  | .create id accts now => q.create_job id accts "" true now
  | .setCurrent id => q.set_current_job id
  | .clearCurrent => q.clear_current_job
  | .startNext => q.start_next_job.1
  | .markStarted id => q.mark_started id
  | .cleanup now age => q.cleanup_old_jobs now age
  | .jobStart id now => { q with jobs := jqModify q.jobs id (fun j => j.start now) }
  | .acctRunning id uid =>
    { q with jobs := jqModify q.jobs id (fun j =>
        { j with accounts := amModify j.accounts uid AccountResult.set_running }) }
  | .acctCompleted id uid csv =>
    { q with jobs := jqModify q.jobs id (fun j =>
        { j with accounts := amModify j.accounts uid (fun a => a.set_completed csv) }) }
  | .acctFailed id uid e =>
    { q with jobs := jqModify q.jobs id (fun j =>
        { j with accounts := amModify j.accounts uid (fun a => a.set_failed e),
                 last_error := some e }) }
  | .updateOverall id => { q with jobs := jqModify q.jobs id JobState.update_overall_status }

/-- Apply a sequence of operations. -/
def applyOps (q : JobQueue) (ops : List QOp) : JobQueue :=
  ops.foldl QOp.apply q

/-- The executor discipline: an operation that can mark a job `Running`
is only performed when no *other* job is `Running`, and an account is
only marked `Running` inside a job that is itself `Running` (as the
background executor does). -/
def activationOk (q : JobQueue) : QOp → Prop
  | .setCurrent id => ∀ p ∈ q.jobs, p.2.status = .Running → p.1 = id
  | .jobStart id _ => ∀ p ∈ q.jobs, p.2.status = .Running → p.1 = id
  | .startNext => q.current_job_id = none → ∀ p ∈ q.jobs, p.2.status ≠ .Running
  | .acctRunning id _ => ∀ j, jqLookup q.jobs id = some j → j.status = .Running
  | _ => True

/-- A trace each of whose operations respects the executor discipline in
the state where it runs. -/
def GuardedFrom : JobQueue → List QOp → Prop
  | _, [] => True
  | q, op :: rest => activationOk q op ∧ GuardedFrom (op.apply q) rest

/-- The number of jobs in the queue with status `Running`. -/
def runningJobs (q : JobQueue) : Nat :=
  (q.jobs.filter (fun p => p.2.status = .Running)).length

/-- The inductive invariant behind C4, on a jobs map: job keys are
distinct, any two `Running` entries share a key, and a job with a
`Running` account is itself `Running`. -/
def RunInvJobs (jobs : List (String × JobState)) : Prop :=
  (jobs.map (fun p => p.1)).Nodup ∧
  (∀ p ∈ jobs, ∀ r ∈ jobs, p.2.status = .Running → r.2.status = .Running →
    p.1 = r.1) ∧
  (∀ p ∈ jobs, (∃ a ∈ p.2.accounts, a.2.status = .Running) → p.2.status = .Running)

/-- The inductive invariant behind C4 on a queue. -/
def RunInv (q : JobQueue) : Prop :=
  RunInvJobs q.jobs

/-! ## Reflection: `handle_file_containing_symbol` (claim C6)

The protobuf descriptor types come from `prost_types`; only the fields
the handler reads are modelled.  All names are `Option String`, read
with `unwrap_or("")` as in the source. -/

structure MethodDescriptorProto where
  name : Option String
  deriving DecidableEq, Repr

structure ServiceDescriptorProto where
  name : Option String
  method : List MethodDescriptorProto
  deriving DecidableEq, Repr

structure DescriptorProto where
  name : Option String
  deriving DecidableEq, Repr

structure EnumDescriptorProto where
  name : Option String
  deriving DecidableEq, Repr

structure FileDescriptorProto where
  name : Option String
  package : Option String
  service : List ServiceDescriptorProto
  message_type : List DescriptorProto
  enum_type : List EnumDescriptorProto
  deriving DecidableEq, Repr

structure FileDescriptorSet where
  file : List FileDescriptorProto
  deriving DecidableEq, Repr

/-- `format!("{}.{}", package, name)` with the empty-package special
case used throughout the handler. -/
def fullName (package name : String) : String :=
  if package = "" then name else package ++ "." ++ name

/-- Whether one file of the descriptor set contains the symbol: as a
service name, a method name, a message type, or an enum type. -/
def symbolInFile (file : FileDescriptorProto) (symbol : String) : Bool :=
  let package := file.package.getD ""
  file.service.any (fun s =>
    let full := fullName package (s.name.getD "")
    full = symbol || s.method.any (fun m => full ++ "." ++ m.name.getD "" = symbol)) ||
  file.message_type.any (fun m => fullName package (m.name.getD "") = symbol) ||
  file.enum_type.any (fun e => fullName package (e.name.getD "") = symbol)

/-- The search loop of `handle_file_containing_symbol`: the first file
containing the symbol. -/
def find_file_containing_symbol (fds : FileDescriptorSet) (symbol : String) :
    Option FileDescriptorProto :=
  fds.file.find? (fun f => symbolInFile f symbol)

/-- The foreign library functions used by the handler, abstracted:
`serde_json::from_slice::<FileContainingSymbolRequest>` (returning the
`symbol` field), `prost` decoding of the descriptor-set bytes, and the
serialize-base64-JSON encoding of the response
(`encode_file_descriptor_response`). -/
structure ReflectionCodec where
  parseSymbolRequest : List Nat → Option String
  decodeFds : List Nat → Option FileDescriptorSet
  encodeFileResponse : FileDescriptorProto → List Nat

/-- `handle_file_containing_symbol`. -/
def handle_file_containing_symbol (rc : ReflectionCodec)
    (file_descriptor_set request_body : List Nat) : GrpcResponse :=
  match rc.parseSymbolRequest request_body with
  | none => GrpcResponse.mkError .InvalidArgument "invalid request JSON"
  | some symbol =>
    if symbol = "" then GrpcResponse.mkError .InvalidArgument "symbol is required"
    else
      match rc.decodeFds file_descriptor_set with
      | none => GrpcResponse.mkError .Internal "failed to parse descriptor set"
      | some fds =>
        match find_file_containing_symbol fds symbol with
        | some file => GrpcResponse.mkOk (rc.encodeFileResponse file)
        | none => GrpcResponse.mkError .NotFound ("symbol not found: " ++ symbol)

/-- A one-file descriptor set for witnesses. -/
def witnessFds : FileDescriptorSet :=
  { file := [{ name := some "scraper.proto", package := some "scraper",
               service := [{ name := some "ETCScraper",
                             method := [{ name := some "Health" }] }],
               message_type := [{ name := some "HealthRequest" }],
               enum_type := [] }] }

/-- A concrete reflection codec for witnesses. -/
def witnessReflectionCodec : ReflectionCodec where
  parseSymbolRequest body :=
    if body = [1] then none else if body = [2] then some "" else some "no.Such"
  decodeFds _ := some witnessFds
  encodeFileResponse _ := []

/-! ## Credentials (`src/gateway/src/p2p/credentials.rs`, claim C8)

The credential file is modelled at the character level (`List Char`),
because `parse_env_format` trims and strips quotes character by
character.  The model's `trimChars` implements `str::trim` on the ASCII
whitespace characters; the round-trip theorem restricts values to
ASCII, where the two coincide. -/

/-- `char::is_whitespace` on ASCII characters. -/
def isWsChar (c : Char) : Bool :=
  c = ' ' || c = '\t' || c = '\n' || c = '\x0b' || c = '\x0c' || c = '\r'

/-- `str::trim`. -/
def trimChars (s : List Char) : List Char :=
  ((s.dropWhile isWsChar).reverse.dropWhile isWsChar).reverse

/-- `str::trim_matches(q)`: strip all leading and trailing copies of
`q`. -/
def trimMatchesChar (q : Char) (s : List Char) : List Char :=
  ((s.dropWhile (fun c => c = q)).reverse.dropWhile (fun c => c = q)).reverse

/-- `value.trim().trim_matches('"').trim_matches('\'')`. -/
def normalizeValue (v : List Char) : List Char :=
  trimMatchesChar '\'' (trimMatchesChar '"' (trimChars v))

/-- `str::lines`, chunk builder: split at `'\n'`, stripping one `'\r'`
before each `'\n'`; a final chunk without a newline is kept as is and
an empty final chunk is dropped. -/
def stripCRend (s : List Char) : List Char :=
  if s.getLast? = some '\r' then s.dropLast else s

def linesAux (acc : List Char) : List Char → List (List Char)
  | [] => if acc = [] then [] else [acc.reverse]
  | c :: rest =>
    if c = '\n' then stripCRend acc.reverse :: linesAux [] rest
    else linesAux (c :: acc) rest

/-- `str::lines`. -/
def rustLines (s : List Char) : List (List Char) :=
  linesAux [] s

/-- `str::split_once('=')`. -/
def splitOnceEq : List Char → Option (List Char × List Char)
  | [] => none
  | c :: rest =>
    if c = '=' then some ([], rest)
    else
      match splitOnceEq rest with
      | some kv => some (c :: kv.1, kv.2)
      | none => none

/-- `P2PCredentials` (string fields as character lists). -/
structure P2PCredentials where
  api_key : List Char
  app_id : List Char
  refresh_token : Option (List Char)
  deriving DecidableEq, Repr

/-- `CredentialsError` (payloads dropped). -/
inductive CredentialsError where
  | Io | Parse | NotFound | InvalidFormat
  deriving DecidableEq, Repr

/-- One iteration of the `for line in content.lines()` loop of
`parse_env_format`, over the state
`(api_key?, app_id, refresh_token?)`. -/
def envLineStep (st : Option (List Char) × List Char × Option (List Char))
    (line : List Char) : Option (List Char) × List Char × Option (List Char) :=
  let t := trimChars line
  if t = [] then st
  else if t.head? = some '#' then st
  else
    match splitOnceEq t with
    | none => st
    | some kv =>
      let key := trimChars kv.1
      let value := normalizeValue kv.2
      if key = "P2P_API_KEY".data ∨ key = "API_KEY".data then
        (some value, st.2.1, st.2.2)
      else if key = "P2P_APP_ID".data ∨ key = "APP_ID".data then
        (st.1, value, st.2.2)
      else if key = "P2P_REFRESH_TOKEN".data ∨ key = "REFRESH_TOKEN".data then
        if ¬ value = [] then (st.1, st.2.1, some value) else st
      else st

/-- `P2PCredentials::parse_env_format`. -/
def parse_env_format (content : List Char) : Except CredentialsError P2PCredentials :=
  match (rustLines content).foldl envLineStep (none, [], none) with
  | (some api_key, app_id, refresh_token) =>
    .ok { api_key := api_key, app_id := app_id, refresh_token := refresh_token }
  | (none, _, _) => .error .InvalidFormat

/-- The file content written by `P2PCredentials::save`. -/
def saveContent (c : P2PCredentials) : List Char :=
  "P2P_API_KEY=".data ++ c.api_key ++ ['\n'] ++
  (if ¬ c.app_id = [] then "P2P_APP_ID=".data ++ c.app_id ++ ['\n'] else []) ++
  (match c.refresh_token with
   | some t => "P2P_REFRESH_TOKEN=".data ++ t ++ ['\n']
   | none => [])

/-- `P2PCredentials::load` applied to file content (file I/O is modelled
as exact storage; the JSON branch — `serde_json::from_str` — is
abstracted as a parameter). -/
def loadContent (jsonLoad : List Char → Except CredentialsError P2PCredentials)
    (content : List Char) : Except CredentialsError P2PCredentials :=
  if (trimChars content).head? = some '\x7b' then jsonLoad content
  else parse_env_format content

/-- A value survives `parse_env_format`'s trimming and quote stripping:
ASCII, no line break, and no whitespace or quote at either end. -/
def cleanEnvValue (v : List Char) : Prop :=
  (∀ c ∈ v, c.toNat < 128) ∧ '\n' ∉ v ∧ '\r' ∉ v ∧
  (∀ c, (v.head? = some c ∨ v.getLast? = some c) →
    isWsChar c = false ∧ ¬ c = '"' ∧ ¬ c = '\'')

instance cleanEnvValueDecidable (v : List Char) : Decidable (cleanEnvValue v) :=
  decidable_of_iff
    ((∀ c ∈ v, c.toNat < 128) ∧ '\n' ∉ v ∧ '\r' ∉ v ∧
      ∀ c ∈ v.head?.toList ++ v.getLast?.toList,
        isWsChar c = false ∧ ¬ c = '"' ∧ ¬ c = '\'') (by
    have hmem : ∀ (o : Option Char) (c : Char), c ∈ o.toList ↔ o = some c := by
      intro o c
      cases o <;> simp [Option.toList, eq_comm]
    unfold cleanEnvValue
    refine and_congr Iff.rfl (and_congr Iff.rfl (and_congr Iff.rfl ?_))
    constructor
    · intro w c hc
      exact w c (by rw [List.mem_append, hmem, hmem]; exact hc)
    · intro w c hc
      exact w c (by rw [List.mem_append, hmem, hmem] at hc; exact hc))

/-- Credentials whose round trip fails: an empty refresh token is
written as `P2P_REFRESH_TOKEN=` and read back as `None`. -/
def credsEmptyRefresh : P2PCredentials :=
  { api_key := "k".data, app_id := [], refresh_token := some [] }

/-- Clean credentials for the round-trip witness. -/
def credsClean : P2PCredentials :=
  { api_key := "key-1".data, app_id := "app".data, refresh_token := some "tok".data }

/-! ## Concrete job fixtures for counterexamples and witnesses -/

/-- A concrete account result. -/
def acctFix (uid : String) (st : JobStatus) : AccountResult :=
  { user_id := uid, name := uid, status := st, csv_path := none, error_message := none }

/-- A concrete job with the given overall status and accounts. -/
def jobFix (st : JobStatus) (accounts : List (String × AccountResult)) : JobState :=
  { job_id := "j1", status := st, accounts := accounts
    account_order := accounts.map (fun a => a.1), passwords := []
    created_at := 0, started_at := none, current_account_index := 0
    download_path := "", session_folder := none, headless := true, last_error := none }

/-- Incomplete job (one queued account) whose overall status is already
`Running`. -/
def jobIncompleteQueued : JobState := jobFix .Running [("u1", acctFix "u1" .Queued)]

/-- Complete job with a failed account. -/
def jobCompleteFailed : JobState := jobFix .Running [("u1", acctFix "u1" .Failed)]

/-- Complete job with all accounts completed. -/
def jobCompleteOk : JobState := jobFix .Running [("u1", acctFix "u1" .Completed)]

/-- Incomplete job with a running account. -/
def jobAcctRunning : JobState := jobFix .Queued [("u1", acctFix "u1" .Running)]

/-- A queue whose only job is `Running`, pending and current. -/
def exQueueOldRunning : JobQueue :=
  { jobs := [("j1", jobFix .Running [])], pending := ["j1"], current_job_id := some "j1" }

/-- Two jobs activated back to back through `set_current_job` — the op
sequence two overlapping background executors perform. -/
def traceTwoRunning : List QOp :=
  [.create "a" [("u", "p", "u")] 0, .create "b" [("u", "p", "u")] 0,
   .setCurrent "a", .setCurrent "b"]

/-- One full, serialized executor episode: the op sequence
`process_job_in_background` performs for a one-account job. -/
def traceGuarded : List QOp :=
  [.create "a" [("u", "p", "u")] 0, .setCurrent "a", .jobStart "a" 0,
   .acctRunning "a" "u", .acctCompleted "a" "u" "out.csv",
   .updateOverall "a", .clearCurrent]

/-! # Theorems -/

theorem be32_length (n : Nat) : (be32 n).length = 4 := rfl

theorem fromBe4_be32 (n : Nat) (h : n < 2 ^ 32) :
    fromBe4 (n / 2 ^ 24 % 256) (n / 2 ^ 16 % 256) (n / 2 ^ 8 % 256) (n % 256) = n := by
  unfold fromBe4
  omega

/-! ## Roundtrip lemmas for `parse_grpc_frames` (claim C2) -/

theorem parseGrpcFramesAux_fuel_irrel :
    ∀ f₁ f₂ data, data.length < f₁ → data.length < f₂ →
      parseGrpcFramesAux f₁ data = parseGrpcFramesAux f₂ data := by
  intro f₁
  induction f₁ with
  | zero => intro f₂ data h₁ _; omega
  | succ f ih =>
    intro f₂ data h₁ h₂
    match f₂, h₂ with
    | f₂ + 1, h₂ =>
      simp only [parseGrpcFramesAux]
      split
      · split
        · rfl
        · split
          · have hlen : ((data.drop 5).drop
                (fromBe4 (data.getD 1 0) (data.getD 2 0) (data.getD 3 0) (data.getD 4 0))).length
                  < data.length := by
              simp only [List.length_drop]; omega
            rw [ih f₂ _ (by omega) (by omega)]
          · have hlen : ((data.drop 5).drop
                (fromBe4 (data.getD 1 0) (data.getD 2 0) (data.getD 3 0) (data.getD 4 0))).length
                  < data.length := by
              simp only [List.length_drop]; omega
            rw [ih f₂ _ (by omega) (by omega)]
      · rfl

theorem parseGrpcFramesAux_nil (fuel : Nat) : parseGrpcFramesAux fuel [] = [] := by
  cases fuel <;> simp [parseGrpcFramesAux]

theorem parseGrpcFramesAux_data_step (x rest : List Nat) (h : x.length < 2 ^ 32)
    (fuel : Nat) :
    parseGrpcFramesAux (fuel + 1) (encode_grpc_data_frame x ++ rest)
      = x :: parseGrpcFramesAux fuel rest := by
  have hdata : encode_grpc_data_frame x ++ rest =
      0 :: (x.length / 2 ^ 24 % 256) :: (x.length / 2 ^ 16 % 256) ::
        (x.length / 2 ^ 8 % 256) :: (x.length % 256) :: (x ++ rest) := by
    simp [encode_grpc_data_frame, be32]
  rw [hdata]
  simp only [parseGrpcFramesAux, List.getD_cons_succ, List.getD_cons_zero,
    List.length_cons, List.drop_succ_cons, List.drop_zero, List.headI]
  rw [fromBe4_be32 x.length h]
  have h5 : (5 : Nat) ≤ (x ++ rest).length + 1 + 1 + 1 + 1 + 1 := by omega
  have hng : ¬ (x.length > (x ++ rest).length) := by
    rw [List.length_append]; omega
  simp [h5, hng, List.take_left, List.drop_left]

theorem parseGrpcFramesAux_trailer_only (status : StatusCode) (fuel : Nat) :
    parseGrpcFramesAux (fuel + 1) (encode_trailer_frame status none) = [] := by
  have hsmall : (strBytes (trailerText status none)).length < 2 ^ 32 := by
    cases status <;> decide
  have hdata : encode_trailer_frame status none =
      1 :: ((strBytes (trailerText status none)).length / 2 ^ 24 % 256) ::
        ((strBytes (trailerText status none)).length / 2 ^ 16 % 256) ::
        ((strBytes (trailerText status none)).length / 2 ^ 8 % 256) ::
        ((strBytes (trailerText status none)).length % 256) ::
        strBytes (trailerText status none) := by
    simp [encode_trailer_frame, be32]
  rw [hdata]
  simp only [parseGrpcFramesAux, List.getD_cons_succ, List.getD_cons_zero,
    List.length_cons, List.drop_succ_cons, List.drop_zero, List.headI]
  rw [fromBe4_be32 _ hsmall]
  have h5 : (5 : Nat) ≤ (strBytes (trailerText status none)).length + 1 + 1 + 1 + 1 + 1 := by
    omega
  have hng : ¬ ((strBytes (trailerText status none)).length
      > (strBytes (trailerText status none)).length) := by omega
  simp [h5, hng, List.drop_length, parseGrpcFramesAux_nil]

/-- Parsing a well-formed data frame followed by anything yields the
frame's payload followed by the parse of the remainder. -/
theorem parse_grpc_frames_cons (x rest : List Nat) (h : x.length < 2 ^ 32) :
    parse_grpc_frames (encode_grpc_data_frame x ++ rest) = x :: parse_grpc_frames rest := by
  unfold parse_grpc_frames
  rw [parseGrpcFramesAux_fuel_irrel ((encode_grpc_data_frame x ++ rest).length + 1)
    ((encode_grpc_data_frame x ++ rest).length + 5 + 1) _ (by omega)
    (by omega)]
  rw [show (encode_grpc_data_frame x ++ rest).length + 5 = rest.length + 5 + 5 + x.length by
    simp [encode_grpc_data_frame, be32]; omega]
  rw [parseGrpcFramesAux_data_step x rest h]
  congr 1
  exact parseGrpcFramesAux_fuel_irrel _ _ rest (by omega) (by omega)

/-- Parsing a single well-formed trailer frame yields no messages. -/
theorem parse_grpc_frames_trailer (status : StatusCode) :
    parse_grpc_frames (encode_trailer_frame status none) = [] := by
  unfold parse_grpc_frames
  exact parseGrpcFramesAux_trailer_only status _

/-- **C2.** For every list of messages, each shorter than `2^32` bytes,
and every status code, parsing the concatenation of the messages'
gRPC-Web data-frame encodings followed by one encoded trailer frame
returns exactly the messages, in order, with the trailer excluded. -/
theorem parse_grpc_frames_roundtrip (msgs : List (List Nat)) (status : StatusCode)
    (h : ∀ m ∈ msgs, m.length < 2 ^ 32) :
    parse_grpc_frames ((msgs.map encode_grpc_data_frame).flatten ++
      encode_trailer_frame status none) = msgs := by
  induction msgs with
  | nil => simpa using parse_grpc_frames_trailer status
  | cons x xs ih =>
    have hx : x.length < 2 ^ 32 := h x (by simp)
    simp only [List.map_cons, List.flatten_cons, List.append_assoc]
    rw [parse_grpc_frames_cons x _ hx]
    rw [ih (fun m hm => h m (by simp [hm]))]

/-- Witness for C2 at a concrete input: two messages and an `Ok` trailer. -/
theorem parse_grpc_frames_roundtrip_witness :
    parse_grpc_frames (([[1], [2, 3]].map encode_grpc_data_frame).flatten ++
      encode_trailer_frame .Ok none) = [[1], [2, 3]] :=
  parse_grpc_frames_roundtrip [[1], [2, 3]] .Ok (by decide)

/-! ## Safety of `parse_request` (claim C9) -/

theorem byteE_getD {data : List Nat} {i : Nat} (h : i < data.length) :
    byteE data i = .ok (data.getD i 0) := by
  simp [byteE, List.getD_eq_getElem?_getD, List.getElem?_eq_getElem h]

theorem read4_eq (data : List Nat) (off : Nat) (h : off + 4 ≤ data.length) :
    read4 data off = .ok (fromBe4 (data.getD off 0) (data.getD (off + 1) 0)
      (data.getD (off + 2) 0) (data.getD (off + 3) 0)) := by
  rw [read4, byteE_getD (by omega), byteE_getD (by omega), byteE_getD (by omega),
    byteE_getD (by omega)]

theorem sliceE_ok (data : List Nat) (start len : Nat) (h : start + len ≤ data.length) :
    sliceE data start len = .ok ((data.drop start).take len) := by
  simp [sliceE, h]

theorem parseFirstDataFrame_eq (fd : List Nat) :
    parseFirstDataFrame fd = .ok (firstDataFramePayload fd) := by
  unfold parseFirstDataFrame firstDataFramePayload
  by_cases h5 : 5 ≤ fd.length
  · have hr : read4 fd 1 = .ok (fromBe4 (fd.getD 1 0) (fd.getD 2 0)
        (fd.getD 3 0) (fd.getD 4 0)) := by
      rw [read4_eq fd 1 (by omega)]
    simp only [if_pos h5, byteE_getD (show 0 < fd.length by omega), hr]
    by_cases hc : fd.getD 0 0 = 0 ∧
        5 + fromBe4 (fd.getD 1 0) (fd.getD 2 0) (fd.getD 3 0) (fd.getD 4 0) ≤ fd.length
    · rw [if_pos hc, sliceE_ok fd 5 _ (by omega), if_pos ⟨h5, hc.1, hc.2⟩]
    · rw [if_neg hc, if_neg (by tauto)]
  · rw [if_neg h5, if_neg (by tauto)]

/-- **C9.** `parse_request` is total and never reads out of bounds: no
input makes it reach an unguarded slice access (the `.oob` panic marker);
inputs shorter than 8 bytes, inputs whose declared `path_len` exceeds the
remaining bytes, and inputs whose declared `headers_len` exceeds the
remaining bytes all return `Err`. -/
theorem parse_request_safe (c : Codec) (data : List Nat) :
    parse_request_chk c data ≠ .error .oob ∧
    (data.length < 8 → parse_request c data = .error "Request too short") ∧
    (∀ plen, ¬ data.length < 8 → read4 data 0 = .ok plen → 4 + plen > data.length →
      parse_request c data =
        .error ("Path length " ++ toString plen ++ " exceeds data length")) ∧
    (∀ plen hlen, ¬ data.length < 8 → read4 data 0 = .ok plen →
      ¬ 4 + plen > data.length → ¬ 4 + plen + 4 > data.length →
      read4 data (4 + plen) = .ok hlen → 4 + plen + 4 + hlen > data.length →
      ∃ e, parse_request c data = .error e) := by
  refine ⟨?_, ?_, ?_, ?_⟩
  · unfold parse_request_chk
    by_cases h8 : data.length < 8
    · simp [h8]
    · obtain ⟨plen, hplen⟩ : ∃ n, read4 data 0 = .ok n :=
        ⟨_, read4_eq data 0 (by omega)⟩
      simp only [if_neg h8, hplen]
      by_cases hp : 4 + plen > data.length
      · simp [hp]
      · simp only [if_neg hp, sliceE_ok data 4 plen (by omega)]
        cases hu : c.utf8 ((data.drop 4).take plen) with
        | error e => simp
        | ok path =>
          by_cases hm : 4 + plen + 4 > data.length
          · simp [hm]
          · obtain ⟨hlen, hhlen⟩ : ∃ n, read4 data (4 + plen) = .ok n :=
              ⟨_, read4_eq data (4 + plen) (by omega)⟩
            simp only [if_neg hm, hhlen]
            by_cases hh : 4 + plen + 4 + hlen > data.length
            · simp [hh]
            · simp only [if_neg hh, sliceE_ok data (4 + plen + 4) hlen (by omega)]
              cases hu2 : c.utf8 ((data.drop (4 + plen + 4)).take hlen) with
              | error e => simp [hu2]
              | ok hj =>
                cases hj2 : c.json hj with
                | error e => simp [hj2]
                | ok hdrs =>
                  simp only [hj2,
                    sliceE_ok data (4 + plen + 4 + hlen)
                      (data.length - (4 + plen + 4 + hlen)) (by omega),
                    parseFirstDataFrame_eq]
                  simp
  · intro h8
    unfold parse_request parse_request_chk
    simp [h8]
  · intro plen h8 hr hp
    unfold parse_request parse_request_chk
    simp only [if_neg h8, hr, if_pos hp]
  · intro plen hlen h8 hr hp hm hr2 hh
    unfold parse_request parse_request_chk
    simp only [if_neg h8, hr, if_neg hp, sliceE_ok data 4 plen (by omega)]
    cases hu : c.utf8 ((data.drop 4).take plen) with
    | error e => exact ⟨_, rfl⟩
    | ok path =>
      simp only [if_neg hm, hr2, if_pos hh]
      exact ⟨_, rfl⟩

/-- Witness for C9: concrete inputs exercising each guarded branch. -/
theorem parse_request_safe_witness :
    parse_request_chk asciiCodec [] ≠ .error .oob ∧
    parse_request asciiCodec [] = .error "Request too short" ∧
    parse_request asciiCodec [0, 0, 0, 200, 0, 0, 0, 0] =
      .error ("Path length " ++ toString 200 ++ " exceeds data length") ∧
    ∃ e, parse_request asciiCodec [0, 0, 0, 0, 0, 0, 255, 255] = .error e := by
  refine ⟨(parse_request_safe asciiCodec []).1,
    (parse_request_safe asciiCodec []).2.1 (by decide),
    (parse_request_safe asciiCodec [0, 0, 0, 200, 0, 0, 0, 0]).2.2.1 200 (by decide)
      (by rfl) (by decide),
    (parse_request_safe asciiCodec [0, 0, 0, 0, 0, 0, 255, 255]).2.2.2 0 65535 (by decide)
      (by rfl) (by decide) (by decide) (by rfl) (by decide)⟩

/-! ## Parsing a well-formed envelope -/

theorem byteE_append_right (pre rest : List Nat) (i : Nat) :
    byteE (pre ++ rest) (pre.length + i) = byteE rest i := by
  unfold byteE
  rw [List.getElem?_append_right (Nat.le_add_right _ _), Nat.add_sub_cancel_left]

theorem read4_at (pre rest : List Nat) :
    read4 (pre ++ rest) pre.length = read4 rest 0 := by
  have h0 := byteE_append_right pre rest 0
  have h1 := byteE_append_right pre rest 1
  have h2 := byteE_append_right pre rest 2
  have h3 := byteE_append_right pre rest 3
  simp only [Nat.add_zero] at h0
  unfold read4
  rw [h0, h1, h2, h3]

theorem read4_cons (a b c d : Nat) (X : List Nat) :
    read4 (a :: b :: c :: d :: X) 0 = .ok (fromBe4 a b c d) := by
  simp [read4, byteE]

theorem read4_be32 (n : Nat) (X : List Nat) (h : n < 2 ^ 32) :
    read4 (be32 n ++ X) 0 = .ok n := by
  have hc : be32 n ++ X = (n / 2 ^ 24 % 256) :: (n / 2 ^ 16 % 256) ::
      (n / 2 ^ 8 % 256) :: (n % 256) :: X := by simp [be32]
  rw [hc, read4_cons, fromBe4_be32 n h]

theorem read4_shift (pre rest : List Nat) (off n : Nat) (h : off = pre.length)
    (hn : read4 rest 0 = .ok n) : read4 (pre ++ rest) off = .ok n := by
  subst h; rw [read4_at pre rest]; exact hn

theorem sliceE_zero_left (P Y : List Nat) : sliceE (P ++ Y) 0 P.length = .ok P := by
  simp [sliceE, List.take_left]

theorem sliceE_zero_full (F : List Nat) : sliceE F 0 F.length = .ok F := by
  simp [sliceE]

theorem sliceE_at (pre rest : List Nat) (len : Nat) :
    sliceE (pre ++ rest) pre.length len = sliceE rest 0 len := by
  unfold sliceE
  by_cases h : len ≤ rest.length
  · rw [if_pos (by simp [List.length_append]; omega), if_pos (by omega), List.drop_left,
      List.drop_zero]
  · rw [if_neg (by simp [List.length_append]; omega), if_neg (by omega)]

theorem sliceE_shift (pre rest : List Nat) (off len : Nat) (res : List Nat)
    (h : off = pre.length) (hr : sliceE rest 0 len = .ok res) :
    sliceE (pre ++ rest) off len = .ok res := by
  subst h; rw [sliceE_at pre rest]; exact hr

/-- Parsing a well-formed request envelope yields the path, the headers
map, and — as the message — the payload of the *first* data frame of the
frames section (empty when the section does not start with a complete
data frame). -/
theorem parse_request_wellformed (c : Codec) (P H F : List Nat) (path hs : String)
    (hdrs : List (String × String))
    (hpl : P.length < 2 ^ 32) (hhl : H.length < 2 ^ 32)
    (hup : c.utf8 P = .ok path) (huh : c.utf8 H = .ok hs)
    (hj : c.json hs = .ok hdrs) :
    parse_request c (be32 P.length ++ P ++ be32 H.length ++ H ++ F)
      = .ok ⟨path, hdrs, firstDataFramePayload F⟩ := by
  set env := be32 P.length ++ P ++ be32 H.length ++ H ++ F with henv
  have hlen : env.length = 4 + P.length + 4 + H.length + F.length := by
    rw [henv]; simp [be32]; omega
  have e1 : read4 env 0 = .ok P.length := by
    rw [henv, show be32 P.length ++ P ++ be32 H.length ++ H ++ F =
      be32 P.length ++ (P ++ (be32 H.length ++ (H ++ F))) by simp]
    exact read4_be32 P.length _ hpl
  have e2 : sliceE env 4 P.length = .ok P := by
    rw [henv, show be32 P.length ++ P ++ be32 H.length ++ H ++ F =
      be32 P.length ++ (P ++ (be32 H.length ++ (H ++ F))) by simp]
    exact sliceE_shift _ _ 4 P.length P (by simp [be32]) (sliceE_zero_left P _)
  have e3 : read4 env (4 + P.length) = .ok H.length := by
    rw [henv, show be32 P.length ++ P ++ be32 H.length ++ H ++ F =
      (be32 P.length ++ P) ++ (be32 H.length ++ (H ++ F)) by simp]
    exact read4_shift _ _ _ H.length (by simp [be32]; omega) (read4_be32 H.length _ hhl)
  have e4 : sliceE env (4 + P.length + 4) H.length = .ok H := by
    rw [henv, show be32 P.length ++ P ++ be32 H.length ++ H ++ F =
      (be32 P.length ++ P ++ be32 H.length) ++ (H ++ F) by simp]
    exact sliceE_shift _ _ _ H.length H (by simp [be32]; omega) (sliceE_zero_left H F)
  have e5 : sliceE env (4 + P.length + 4 + H.length)
      (env.length - (4 + P.length + 4 + H.length)) = .ok F := by
    rw [show env.length - (4 + P.length + 4 + H.length) = F.length by omega]
    rw [henv, show be32 P.length ++ P ++ be32 H.length ++ H ++ F =
      (be32 P.length ++ P ++ be32 H.length ++ H) ++ F by simp]
    exact sliceE_shift _ _ _ F.length F (by simp [be32]; omega) (sliceE_zero_full F)
  unfold parse_request parse_request_chk
  rw [if_neg (show ¬ env.length < 8 by omega)]
  simp only [e1]
  rw [if_neg (show ¬ 4 + P.length > env.length by omega)]
  simp only [e2, hup]
  rw [if_neg (show ¬ 4 + P.length + 4 > env.length by omega)]
  simp only [e3]
  rw [if_neg (show ¬ 4 + P.length + 4 + H.length > env.length by omega)]
  simp only [e4, huh, hj, e5, parseFirstDataFrame_eq]

/-! ## Claims C1, C3 and C7 about request processing -/

/-- **C1 counterexample.** An envelope carrying two data frames (payloads
`[17]` and `[34]`) parses with message `[17]` — the first frame's payload
only — not the concatenation `[17, 34]` of all data-frame payloads. -/
theorem parse_request_two_frames_counterexample :
    parse_request asciiCodec envTwoFrames =
      .ok { path := "/a", headers := [], message := [17] } ∧
    (parse_grpc_frames framesTwo).flatten = [17, 34] ∧
    ([17] : List Nat) ≠ [17, 34] := by
  refine ⟨by decide, by decide, by decide⟩

/-- **C1 (amended).** A parsed well-formed request keeps the path and the
headers map, and its message is the payload of the *first* data frame of
the envelope's frames section (empty when the section does not begin
with a complete `flags = 0x00` frame) — not the concatenation of all
data-frame payloads. -/
theorem parse_request_keeps_path_headers_first_frame (c : Codec) (P H F : List Nat)
    (path hs : String) (hdrs : List (String × String))
    (hpl : P.length < 2 ^ 32) (hhl : H.length < 2 ^ 32)
    (hup : c.utf8 P = .ok path) (huh : c.utf8 H = .ok hs)
    (hj : c.json hs = .ok hdrs) :
    parse_request c (be32 P.length ++ P ++ be32 H.length ++ H ++ F)
      = .ok ⟨path, hdrs, firstDataFramePayload F⟩ :=
  parse_request_wellformed c P H F path hs hdrs hpl hhl hup huh hj

/-- Witness for C1's amended theorem at the two-frame envelope. -/
theorem parse_request_keeps_path_headers_first_frame_witness :
    parse_request asciiCodec (be32 2 ++ [47, 97] ++ be32 2 ++ [123, 125] ++ framesTwo)
      = .ok ⟨"/a", [], firstDataFramePayload framesTwo⟩ :=
  parse_request_keeps_path_headers_first_frame asciiCodec [47, 97] [123, 125] framesTwo
    "/a" "\x7b\x7d" [] (by decide) (by decide) (by rfl) (by rfl) (by rfl)

/-- **C3.** For every input rejected by `parse_request`, both
`process_request` and `process_request_with_reflection` return a unary
response consisting of the headers section and a single trailer frame
(zero data frames) whose `grpc-status` is 13 (Internal) and whose
`grpc-message` is the parser's error text. -/
theorem process_request_parse_error (c : Codec) (router : GrpcRouter)
    (deps : ReflectionDeps) (fds : Option (List Nat)) (data : List Nat) (e : String)
    (h : parse_request c data = .error e) :
    process_request c router data = encode_response (GrpcResponse.mkError .Internal e) ∧
    process_request_with_reflection c deps fds data =
      .Unary (encode_response (GrpcResponse.mkError .Internal e)) ∧
    (GrpcResponse.mkError .Internal e).messages = [] ∧
    encode_response (GrpcResponse.mkError .Internal e) =
      be32 (strBytes (jsonEncodeHeaders [])).length ++ strBytes (jsonEncodeHeaders []) ++
        encode_trailer_frame .Internal (some e) ∧
    trailerText .Internal (some e) = "grpc-status: 13\r\ngrpc-message: " ++ e ++ "\r\n" := by
  refine ⟨?_, ?_, rfl, ?_, ?_⟩
  · unfold process_request
    rw [h]
  · unfold process_request_with_reflection
    rw [h]
  · unfold encode_response GrpcResponse.mkError
    simp
  · unfold trailerText
    have h13 : ("grpc-status: " ++ toString (StatusCode.toCode .Internal) ++ "\r\n"
        ++ "grpc-message: " : String) = "grpc-status: 13\r\ngrpc-message: " := by decide
    dsimp only
    rw [h13]

/-- Witness for C3 at the empty input (parse error `Request too short`). -/
theorem process_request_parse_error_witness :
    process_request asciiCodec [] [] =
      encode_response (GrpcResponse.mkError .Internal "Request too short") ∧
    process_request_with_reflection asciiCodec trivialDeps none [] =
      .Unary (encode_response (GrpcResponse.mkError .Internal "Request too short")) :=
  ⟨(process_request_parse_error asciiCodec [] trivialDeps none [] "Request too short"
      (by rfl)).1,
   (process_request_parse_error asciiCodec [] trivialDeps none [] "Request too short"
      (by rfl)).2.1⟩

/-- **C7 counterexample.** A well-formed envelope with `path_len = 0` is
*accepted* by `parse_request` (empty path), and processing it against a
router with no handler for the empty path yields an `Unimplemented` (12)
trailer, not `InvalidArgument` (3). -/
theorem path_len_zero_counterexample :
    parse_request asciiCodec envPathLenZero = .ok ⟨"", [], []⟩ ∧
    process_request asciiCodec [] envPathLenZero =
      encode_response (GrpcResponse.mkUnimplemented "") ∧
    StatusCode.toCode (GrpcResponse.mkUnimplemented "").status = 12 ∧
    (GrpcResponse.mkUnimplemented "").status ≠ .InvalidArgument := by
  refine ⟨by decide, by decide, by decide, by decide⟩

/-- **C7 (amended).** A request envelope with `path_len = 0` (and
otherwise well formed) is not rejected: it parses with an empty path
and is routed like any other request; with no handler registered for
the empty path, the processed response carries `grpc-status` 12
(Unimplemented), not 3 (InvalidArgument). -/
theorem process_request_path_len_zero (c : Codec) (router : GrpcRouter)
    (H F : List Nat) (hs : String) (hdrs : List (String × String))
    (hhl : H.length < 2 ^ 32)
    (hu0 : c.utf8 [] = .ok "") (huh : c.utf8 H = .ok hs) (hj : c.json hs = .ok hdrs)
    (hx : hmGet hdrs "x-request-id" = none)
    (hrt : List.find? (fun h => h.1 = "") router = none) :
    parse_request c (be32 0 ++ be32 H.length ++ H ++ F)
      = .ok ⟨"", hdrs, firstDataFramePayload F⟩ ∧
    process_request c router (be32 0 ++ be32 H.length ++ H ++ F)
      = encode_response (GrpcResponse.mkUnimplemented "") := by
  have hparse := parse_request_wellformed c [] H F "" hs hdrs (by decide) hhl hu0 huh hj
  have henv : (be32 (List.length ([] : List Nat)) ++ ([] : List Nat) ++ be32 H.length
      ++ H ++ F) = be32 0 ++ be32 H.length ++ H ++ F := by simp
  rw [henv] at hparse
  refine ⟨hparse, ?_⟩
  unfold process_request
  rw [hparse]
  unfold GrpcRouter.handle
  dsimp only
  rw [hrt, hx]

/-- Witness for C7's amended theorem at a concrete envelope. -/
theorem process_request_path_len_zero_witness :
    process_request asciiCodec [] envPathLenZero =
      encode_response (GrpcResponse.mkUnimplemented "") :=
  (process_request_path_len_zero asciiCodec [] [123, 125] [] "\x7b\x7d" []
    (by decide) (by rfl) (by rfl) (by rfl) (by rfl) (by rfl)).2

/-! ## Claim C5: `update_overall_status` -/

/-- **C5 counterexample.** For a job that is not complete and has no
account with status `Running`, `update_overall_status` leaves the
status unchanged (here `Running`) instead of setting it to `Queued`. -/
theorem update_overall_status_counterexample :
    jobIncompleteQueued.is_complete = false ∧
    (∀ a ∈ jobIncompleteQueued.accounts, a.2.status ≠ .Running) ∧
    (JobState.update_overall_status jobIncompleteQueued).status = .Running ∧
    (JobState.update_overall_status jobIncompleteQueued).status ≠ .Queued := by
  refine ⟨by decide, by decide, by decide, by decide⟩

/-- **C5 (amended).** After `update_overall_status`: a complete job with
a failed account becomes `Failed`; a complete job without failed
accounts becomes `Completed`; an incomplete job with a running account
becomes `Running`; an incomplete job with no running account is left
entirely unchanged (not set to `Queued`). -/
theorem update_overall_status_spec (j : JobState) :
    (j.is_complete = true → (∃ a ∈ j.accounts, a.2.status = .Failed) →
      (JobState.update_overall_status j).status = .Failed) ∧
    (j.is_complete = true → (∀ a ∈ j.accounts, a.2.status ≠ .Failed) →
      (JobState.update_overall_status j).status = .Completed) ∧
    (j.is_complete = false → (∃ a ∈ j.accounts, a.2.status = .Running) →
      (JobState.update_overall_status j).status = .Running) ∧
    (j.is_complete = false → (∀ a ∈ j.accounts, a.2.status ≠ .Running) →
      JobState.update_overall_status j = j) := by
  refine ⟨?_, ?_, ?_, ?_⟩
  · intro hc hex
    have hany : j.accounts.any (fun a => a.2.status = .Failed) = true := by
      simp only [List.any_eq_true, decide_eq_true_eq]
      exact hex
    simp [JobState.update_overall_status, hc, hany]
  · intro hc hall
    have hany : j.accounts.any (fun a => a.2.status = .Failed) = false := by
      simp only [List.any_eq_false, decide_eq_true_eq]
      exact hall
    simp [JobState.update_overall_status, hc, hany]
  · intro hc hex
    have hany : j.accounts.any (fun a => a.2.status = .Running) = true := by
      simp only [List.any_eq_true, decide_eq_true_eq]
      exact hex
    simp [JobState.update_overall_status, hc, hany]
  · intro hc hall
    have hany : j.accounts.any (fun a => a.2.status = .Running) = false := by
      simp only [List.any_eq_false, decide_eq_true_eq]
      exact hall
    simp [JobState.update_overall_status, hc, hany]

/-- Witness for C5's amended theorem on four concrete jobs. -/
theorem update_overall_status_spec_witness :
    (JobState.update_overall_status jobCompleteFailed).status = .Failed ∧
    (JobState.update_overall_status jobCompleteOk).status = .Completed ∧
    (JobState.update_overall_status jobAcctRunning).status = .Running ∧
    JobState.update_overall_status jobIncompleteQueued = jobIncompleteQueued :=
  ⟨(update_overall_status_spec jobCompleteFailed).1 (by decide) (by decide),
   (update_overall_status_spec jobCompleteOk).2.1 (by decide) (by decide),
   (update_overall_status_spec jobAcctRunning).2.2.1 (by decide) (by decide),
   (update_overall_status_spec jobIncompleteQueued).2.2.2 (by decide) (by decide)⟩

/-! ## Claim C10: `cleanup_old_jobs` -/

/-- **C10.** `cleanup_old_jobs` removes exactly the jobs whose age
reaches `max_age_secs`, regardless of status (a `Running`, pending,
current job included), and leaves `pending` and `current_job_id`
untouched — so they may keep IDs of removed jobs, as the concrete queue
in the last conjunct shows. -/
theorem cleanup_old_jobs_spec (q : JobQueue) (now max_age : Nat) :
    (q.cleanup_old_jobs now max_age).pending = q.pending ∧
    (q.cleanup_old_jobs now max_age).current_job_id = q.current_job_id ∧
    (q.cleanup_old_jobs now max_age).jobs
      = q.jobs.filter (fun p => now - p.2.created_at < max_age) ∧
    (∀ p ∈ q.jobs, (p ∈ (q.cleanup_old_jobs now max_age).jobs ↔
      now - p.2.created_at < max_age)) ∧
    ((exQueueOldRunning.cleanup_old_jobs 100 10).jobs = [] ∧
      (exQueueOldRunning.cleanup_old_jobs 100 10).pending = ["j1"] ∧
      (exQueueOldRunning.cleanup_old_jobs 100 10).current_job_id = some "j1" ∧
      (jqLookup exQueueOldRunning.jobs "j1").map JobState.status = some .Running) := by
  refine ⟨rfl, rfl, rfl, ?_, by decide, by decide, by decide, by decide⟩
  intro p hp
  simp [JobQueue.cleanup_old_jobs, List.mem_filter, hp]

/-- Witness for C10 at a concrete queue and job entry. -/
theorem cleanup_old_jobs_spec_witness :
    ("j1", jobFix .Running []) ∈ (exQueueOldRunning.cleanup_old_jobs 100 10).jobs ↔
      (100 : Nat) - ("j1", jobFix .Running []).2.created_at < 10 :=
  (cleanup_old_jobs_spec exQueueOldRunning 100 10).2.2.2.1
    ("j1", jobFix .Running []) (by decide)

/-! ## Claim C4: at most one running job -/

theorem keys_jqModify (jobs : List (String × JobState)) (id : String)
    (f : JobState → JobState) :
    (jqModify jobs id f).map (fun p => p.1) = jobs.map (fun p => p.1) := by
  unfold jqModify
  rw [List.map_map]
  apply List.map_congr_left
  intro p _
  by_cases h : p.1 = id <;> simp [h]

theorem jqLookup_of_mem (jobs : List (String × JobState)) (p : String × JobState)
    (hnd : (jobs.map (fun x => x.1)).Nodup) (hp : p ∈ jobs) :
    jqLookup jobs p.1 = some p.2 := by
  induction jobs with
  | nil => cases hp
  | cons hd tl ih =>
    simp only [List.map_cons, List.nodup_cons] at hnd
    by_cases hcase : hd.1 = p.1
    · have hpe : p = hd := by
        rcases List.mem_cons.mp hp with h1 | h2
        · exact h1
        · exfalso
          apply hnd.1
          rw [hcase]
          exact List.mem_map_of_mem (fun x => x.1) h2
      subst hpe
      simp [jqLookup, List.find?_cons]
    · have h2 : p ∈ tl := by
        rcases List.mem_cons.mp hp with h1 | h2
        · exfalso; apply hcase; rw [h1]
        · exact h2
      have hih := ih hnd.2 h2
      have hskip : List.find? (fun x => x.1 = p.1) (hd :: tl)
          = List.find? (fun x => x.1 = p.1) tl := by
        rw [List.find?_cons]
        simp [hcase]
      unfold jqLookup at hih ⊢
      rw [hskip]
      exact hih

theorem update_overall_status_accounts (j : JobState) :
    (JobState.update_overall_status j).accounts = j.accounts := by
  unfold JobState.update_overall_status
  split
  · split <;> rfl
  · split <;> rfl

theorem update_overall_status_running_imp (j : JobState)
    (hinv : (∃ a ∈ j.accounts, a.2.status = .Running) → j.status = .Running)
    (h : (JobState.update_overall_status j).status = .Running) : j.status = .Running := by
  unfold JobState.update_overall_status at h
  by_cases hc : j.is_complete = true
  · rw [if_pos hc] at h
    by_cases hf : j.accounts.any (fun a => a.2.status = .Failed) = true
    · rw [if_pos hf] at h; cases h
    · rw [if_neg hf] at h; cases h
  · rw [if_neg hc] at h
    by_cases hr : j.accounts.any (fun a => a.2.status = .Running) = true
    · apply hinv
      simpa [List.any_eq_true, decide_eq_true_eq] using hr
    · rw [if_neg hr] at h
      exact h

theorem update_overall_status_running_of_acct (j : JobState)
    (h : ∃ a ∈ j.accounts, a.2.status = .Running) :
    (JobState.update_overall_status j).status = .Running := by
  have hc : j.is_complete = false := by
    unfold JobState.is_complete JobState.completed_count JobState.total_count
    obtain ⟨a, ha, hst⟩ := h
    have hlt : (j.accounts.filter
        (fun a => a.2.status = .Completed ∨ a.2.status = .Failed)).length
        < j.accounts.length :=
      List.length_filter_lt_length_iff_exists.mpr ⟨a, ha, by simp [hst]⟩
    simp only [decide_eq_false_iff_not]
    omega
  have hany : j.accounts.any (fun a => a.2.status = .Running) = true := by
    simp only [List.any_eq_true, decide_eq_true_eq]
    exact h
  simp [JobState.update_overall_status, hc, hany]

theorem RunInvJobs_modifyRunning (jobs : List (String × JobState)) (id : String)
    (f : JobState → JobState) (hq : RunInvJobs jobs)
    (hg : ∀ p ∈ jobs, p.2.status = .Running → p.1 = id)
    (hf : ∀ j, (f j).status = .Running) :
    RunInvJobs (jqModify jobs id f) := by
  obtain ⟨hnd, h2, h3⟩ := hq
  refine ⟨by rw [keys_jqModify]; exact hnd, ?_, ?_⟩
  · intro p' hp' r' hr' hps hrs
    obtain ⟨p, hp, hgp⟩ := List.mem_map.mp hp'
    obtain ⟨r, hr, hgr⟩ := List.mem_map.mp hr'
    by_cases hk1 : p.1 = id <;> by_cases hk2 : r.1 = id
    · rw [if_pos hk1] at hgp
      rw [if_pos hk2] at hgr
      rw [← hgp, ← hgr]
      dsimp only
      rw [hk1, hk2]
    · rw [if_neg hk2] at hgr
      rw [← hgr] at hrs
      exact absurd (hg r hr hrs) hk2
    · rw [if_neg hk1] at hgp
      rw [← hgp] at hps
      exact absurd (hg p hp hps) hk1
    · rw [if_neg hk1] at hgp
      rw [← hgp] at hps
      exact absurd (hg p hp hps) hk1
  · intro p' hp' hex
    obtain ⟨p, hp, hgp⟩ := List.mem_map.mp hp'
    by_cases hk : p.1 = id
    · rw [if_pos hk] at hgp
      rw [← hgp]
      exact hf p.2
    · rw [if_neg hk] at hgp
      rw [← hgp] at hex ⊢
      exact h3 p hp hex

theorem RunInvJobs_modifyPreserving (jobs : List (String × JobState)) (id : String)
    (f : JobState → JobState) (hq : RunInvJobs jobs)
    (hst : ∀ j, (f j).status = j.status)
    (h3new : ∀ p ∈ jobs, p.1 = id → (∃ a ∈ (f p.2).accounts, a.2.status = .Running) →
      (f p.2).status = .Running) :
    RunInvJobs (jqModify jobs id f) := by
  obtain ⟨hnd, h2, h3⟩ := hq
  refine ⟨by rw [keys_jqModify]; exact hnd, ?_, ?_⟩
  · intro p' hp' r' hr' hps hrs
    obtain ⟨p, hp, hgp⟩ := List.mem_map.mp hp'
    obtain ⟨r, hr, hgr⟩ := List.mem_map.mp hr'
    have hpkey : p'.1 = p.1 := by
      by_cases hk : p.1 = id
      · rw [if_pos hk] at hgp; rw [← hgp]
      · rw [if_neg hk] at hgp; rw [← hgp]
    have hrkey : r'.1 = r.1 := by
      by_cases hk : r.1 = id
      · rw [if_pos hk] at hgr; rw [← hgr]
      · rw [if_neg hk] at hgr; rw [← hgr]
    have hpstat : p.2.status = .Running := by
      by_cases hk : p.1 = id
      · rw [if_pos hk] at hgp; rw [← hgp] at hps; dsimp only at hps
        rw [hst] at hps; exact hps
      · rw [if_neg hk] at hgp; rw [← hgp] at hps; exact hps
    have hrstat : r.2.status = .Running := by
      by_cases hk : r.1 = id
      · rw [if_pos hk] at hgr; rw [← hgr] at hrs; dsimp only at hrs
        rw [hst] at hrs; exact hrs
      · rw [if_neg hk] at hgr; rw [← hgr] at hrs; exact hrs
    rw [hpkey, hrkey]
    exact h2 p hp r hr hpstat hrstat
  · intro p' hp' hex
    obtain ⟨p, hp, hgp⟩ := List.mem_map.mp hp'
    by_cases hk : p.1 = id
    · rw [if_pos hk] at hgp
      rw [← hgp] at hex ⊢
      dsimp only at hex ⊢
      exact h3new p hp hk hex
    · rw [if_neg hk] at hgp
      rw [← hgp] at hex ⊢
      exact h3 p hp hex

theorem RunInvJobs_updateOverall (jobs : List (String × JobState)) (id : String)
    (hq : RunInvJobs jobs) :
    RunInvJobs (jqModify jobs id JobState.update_overall_status) := by
  obtain ⟨hnd, h2, h3⟩ := hq
  refine ⟨by rw [keys_jqModify]; exact hnd, ?_, ?_⟩
  · intro p' hp' r' hr' hps hrs
    obtain ⟨p, hp, hgp⟩ := List.mem_map.mp hp'
    obtain ⟨r, hr, hgr⟩ := List.mem_map.mp hr'
    have hpkey : p'.1 = p.1 := by
      by_cases hk : p.1 = id
      · rw [if_pos hk] at hgp; rw [← hgp]
      · rw [if_neg hk] at hgp; rw [← hgp]
    have hrkey : r'.1 = r.1 := by
      by_cases hk : r.1 = id
      · rw [if_pos hk] at hgr; rw [← hgr]
      · rw [if_neg hk] at hgr; rw [← hgr]
    have hpstat : p.2.status = .Running := by
      by_cases hk : p.1 = id
      · rw [if_pos hk] at hgp; rw [← hgp] at hps; dsimp only at hps
        exact update_overall_status_running_imp p.2 (h3 p hp) hps
      · rw [if_neg hk] at hgp; rw [← hgp] at hps; exact hps
    have hrstat : r.2.status = .Running := by
      by_cases hk : r.1 = id
      · rw [if_pos hk] at hgr; rw [← hgr] at hrs; dsimp only at hrs
        exact update_overall_status_running_imp r.2 (h3 r hr) hrs
      · rw [if_neg hk] at hgr; rw [← hgr] at hrs; exact hrs
    rw [hpkey, hrkey]
    exact h2 p hp r hr hpstat hrstat
  · intro p' hp' hex
    obtain ⟨p, hp, hgp⟩ := List.mem_map.mp hp'
    by_cases hk : p.1 = id
    · rw [if_pos hk] at hgp
      rw [← hgp] at hex ⊢
      dsimp only at hex ⊢
      rw [update_overall_status_accounts] at hex
      exact update_overall_status_running_of_acct p.2 hex
    · rw [if_neg hk] at hgp
      rw [← hgp] at hex ⊢
      exact h3 p hp hex

theorem RunInvJobs_insert (jobs : List (String × JobState)) (id : String) (job : JobState)
    (hq : RunInvJobs jobs) (hstatus : ¬ job.status = .Running)
    (haccs : ∀ a ∈ job.accounts, ¬ a.2.status = .Running) :
    RunInvJobs (jqInsert jobs id job) := by
  obtain ⟨hnd, h2, h3⟩ := hq
  unfold jqInsert
  by_cases hfind : (jobs.find? (fun p => p.1 = id)).isSome
  · rw [if_pos hfind]
    refine ⟨?_, ?_, ?_⟩
    · rw [List.map_map]
      have hkeys : jobs.map ((fun p => p.1) ∘ fun p => if p.1 = id then (id, job) else p)
          = jobs.map (fun p => p.1) := by
        apply List.map_congr_left
        intro p _
        by_cases h : p.1 = id <;> simp [h]
      rw [hkeys]
      exact hnd
    · intro p' hp' r' hr' hps hrs
      obtain ⟨p, hp, hgp⟩ := List.mem_map.mp hp'
      obtain ⟨r, hr, hgr⟩ := List.mem_map.mp hr'
      have hpo : p' = p ∧ p.2.status = .Running := by
        by_cases hk : p.1 = id
        · rw [if_pos hk] at hgp; rw [← hgp] at hps; exact absurd hps hstatus
        · rw [if_neg hk] at hgp; rw [← hgp] at hps ⊢; exact ⟨rfl, hps⟩
      have hro : r' = r ∧ r.2.status = .Running := by
        by_cases hk : r.1 = id
        · rw [if_pos hk] at hgr; rw [← hgr] at hrs; exact absurd hrs hstatus
        · rw [if_neg hk] at hgr; rw [← hgr] at hrs ⊢; exact ⟨rfl, hrs⟩
      rw [hpo.1, hro.1]
      exact h2 p hp r hr hpo.2 hro.2
    · intro p' hp' hex
      obtain ⟨p, hp, hgp⟩ := List.mem_map.mp hp'
      by_cases hk : p.1 = id
      · rw [if_pos hk] at hgp
        rw [← hgp] at hex ⊢
        dsimp only at hex ⊢
        obtain ⟨a, ha, hst⟩ := hex
        exact absurd hst (haccs a ha)
      · rw [if_neg hk] at hgp
        rw [← hgp] at hex ⊢
        exact h3 p hp hex
  · rw [if_neg hfind]
    have hid : ∀ p ∈ jobs, ¬ p.1 = id := by
      intro p hp
      have hnone := List.find?_eq_none.mp (Option.not_isSome_iff_eq_none.mp hfind) p hp
      simpa using hnone
    refine ⟨?_, ?_, ?_⟩
    · rw [List.map_append]
      apply List.Nodup.append hnd (List.nodup_singleton id)
      intro a ha hb
      obtain ⟨p, hp, hpa⟩ := List.mem_map.mp ha
      have : a = id := by simpa using hb
      exact hid p hp (by rw [hpa, this])
    · intro p' hp' r' hr' hps hrs
      rcases List.mem_append.mp hp' with hpo | hpn
      · rcases List.mem_append.mp hr' with hro | hrn
        · exact h2 p' hpo r' hro hps hrs
        · have : r' = (id, job) := by simpa using hrn
          rw [this] at hrs
          exact absurd hrs hstatus
      · have : p' = (id, job) := by simpa using hpn
        rw [this] at hps
        exact absurd hps hstatus
    · intro p' hp' hex
      rcases List.mem_append.mp hp' with hpo | hpn
      · exact h3 p' hpo hex
      · have hpe : p' = (id, job) := by simpa using hpn
        rw [hpe] at hex
        obtain ⟨a, ha, hst⟩ := hex
        exact absurd hst (haccs a ha)

theorem RunInvJobs_filter (jobs : List (String × JobState))
    (pred : String × JobState → Bool) (hq : RunInvJobs jobs) :
    RunInvJobs (jobs.filter pred) := by
  obtain ⟨hnd, h2, h3⟩ := hq
  refine ⟨?_, ?_, ?_⟩
  · exact List.Nodup.sublist ((jobs.filter_sublist).map (fun p => p.1)) hnd
  · intro p hp r hr
    exact h2 p (List.mem_of_mem_filter hp) r (List.mem_of_mem_filter hr)
  · intro p hp
    exact h3 p (List.mem_of_mem_filter hp)

theorem RunInv_new : RunInv JobQueue.new :=
  ⟨by decide, by decide, by decide⟩

theorem RunInv_step (q : JobQueue) (op : QOp) (hq : RunInv q)
    (hok : activationOk q op) : RunInv (QOp.apply q op) := by
  cases op with
  | create id accts now =>
    show RunInvJobs (jqInsert q.jobs id (JobState.new id accts "" true now))
    apply RunInvJobs_insert _ _ _ hq
    · simp [JobState.new]
    · intro a ha
      simp only [JobState.new, List.mem_map] at ha
      obtain ⟨x, _, hx⟩ := ha
      rw [← hx]
      simp [AccountResult.new]
  | setCurrent id =>
    show RunInvJobs (jqModify q.jobs id (fun j => { j with status := .Running }))
    exact RunInvJobs_modifyRunning _ _ _ hq hok (fun j => rfl)
  | clearCurrent => exact hq
  | startNext =>
    show RunInv (q.start_next_job.1)
    unfold JobQueue.start_next_job
    by_cases hr : q.has_running_job = true
    · rw [if_pos hr]; exact hq
    · rw [if_neg hr]
      cases hh : q.pending.head? with
      | none => exact hq
      | some id =>
        have hcur : q.current_job_id = none := by
          unfold JobQueue.has_running_job at hr
          exact Option.not_isSome_iff_eq_none.mp (by simpa using hr)
        have hnone := hok hcur
        show RunInvJobs (jqModify q.jobs id (fun j => { j with status := .Running }))
        exact RunInvJobs_modifyRunning _ _ _ hq
          (fun p hp hps => absurd hps (hnone p hp)) (fun j => rfl)
  | markStarted id => exact hq
  | cleanup now age =>
    show RunInvJobs (q.jobs.filter (fun p => now - p.2.created_at < age))
    exact RunInvJobs_filter _ _ hq
  | jobStart id now =>
    show RunInvJobs (jqModify q.jobs id (fun j => j.start now))
    exact RunInvJobs_modifyRunning _ _ _ hq hok (fun j => rfl)
  | acctRunning id uid =>
    show RunInvJobs (jqModify q.jobs id (fun j =>
      { j with accounts := amModify j.accounts uid AccountResult.set_running }))
    apply RunInvJobs_modifyPreserving
    · exact hq
    · intro j; rfl
    · intro p hp hk _
      have hlook : jqLookup q.jobs id = some p.2 := by
        rw [← hk]
        exact jqLookup_of_mem q.jobs p hq.1 hp
      exact hok p.2 hlook
  | acctCompleted id uid csv =>
    show RunInvJobs (jqModify q.jobs id (fun j =>
      { j with accounts := amModify j.accounts uid (fun a => a.set_completed csv) }))
    apply RunInvJobs_modifyPreserving
    · exact hq
    · intro j; rfl
    · intro p hp _ hex
      obtain ⟨a, ha, hst⟩ := hex
      obtain ⟨a₀, ha₀, hga⟩ := List.mem_map.mp ha
      have hrun : a₀.2.status = .Running := by
        by_cases hu : a₀.1 = uid
        · rw [if_pos hu] at hga
          rw [← hga] at hst
          simp [AccountResult.set_completed] at hst
        · rw [if_neg hu] at hga
          rw [← hga] at hst
          exact hst
      show p.2.status = .Running
      exact hq.2.2 p hp ⟨a₀, ha₀, hrun⟩
  | acctFailed id uid e =>
    show RunInvJobs (jqModify q.jobs id (fun j =>
      { j with accounts := amModify j.accounts uid (fun a => a.set_failed e),
               last_error := some e }))
    apply RunInvJobs_modifyPreserving
    · exact hq
    · intro j; rfl
    · intro p hp _ hex
      obtain ⟨a, ha, hst⟩ := hex
      obtain ⟨a₀, ha₀, hga⟩ := List.mem_map.mp ha
      have hrun : a₀.2.status = .Running := by
        by_cases hu : a₀.1 = uid
        · rw [if_pos hu] at hga
          rw [← hga] at hst
          simp [AccountResult.set_failed] at hst
        · rw [if_neg hu] at hga
          rw [← hga] at hst
          exact hst
      show p.2.status = .Running
      exact hq.2.2 p hp ⟨a₀, ha₀, hrun⟩
  | updateOverall id =>
    show RunInvJobs (jqModify q.jobs id JobState.update_overall_status)
    exact RunInvJobs_updateOverall _ _ hq

theorem RunInv_applyOps (q : JobQueue) (ops : List QOp) (hq : RunInv q)
    (h : GuardedFrom q ops) : RunInv (applyOps q ops) := by
  induction ops generalizing q with
  | nil => exact hq
  | cons op rest ih =>
    simp only [GuardedFrom] at h
    exact ih (QOp.apply q op) (RunInv_step q op hq h.1) h.2

theorem GuardedFrom_take (q : JobQueue) (ops : List QOp) (n : Nat)
    (h : GuardedFrom q ops) : GuardedFrom q (ops.take n) := by
  induction ops generalizing q n with
  | nil => simp [GuardedFrom]
  | cons op rest ih =>
    cases n with
    | zero => simp [GuardedFrom]
    | succ n =>
      simp only [GuardedFrom, List.take_succ_cons] at h ⊢
      exact ⟨h.1, ih (QOp.apply q op) n h.2⟩

theorem runningJobs_le_one (q : JobQueue) (hq : RunInv q) : runningJobs q ≤ 1 := by
  obtain ⟨hnd, h2, _⟩ := hq
  unfold runningJobs
  rcases hl : q.jobs.filter (fun p => p.2.status = .Running) with _ | ⟨x, t⟩
  · rw [hl]; simp
  · rcases t with _ | ⟨y, t'⟩
    · rw [hl]; simp
    · exfalso
      have hx : x ∈ q.jobs.filter (fun p => p.2.status = .Running) := by
        rw [hl]; exact List.mem_cons_self _ _
      have hy : y ∈ q.jobs.filter (fun p => p.2.status = .Running) := by
        rw [hl]; simp
      have hxm := List.mem_filter.mp hx
      have hym := List.mem_filter.mp hy
      have hkey : x.1 = y.1 :=
        h2 x hxm.1 y hym.1 (by simpa using hxm.2) (by simpa using hym.2)
      have hndf : ((q.jobs.filter (fun p => p.2.status = .Running)).map
          (fun p => p.1)).Nodup :=
        List.Nodup.sublist ((q.jobs.filter_sublist).map (fun p => p.1)) hnd
      rw [hl] at hndf
      simp only [List.map_cons, List.nodup_cons] at hndf
      exact hndf.1 (by rw [hkey]; simp)

/-- **C4 counterexample.** Starting from the empty queue, the sequence
`create a; create b; set_current_job a; set_current_job b` — exactly
what two overlapping background executors perform — leaves *two* jobs
with status `Running`. -/
theorem two_running_jobs_counterexample :
    runningJobs (applyOps JobQueue.new traceTwoRunning) = 2 ∧
    ¬ runningJobs (applyOps JobQueue.new traceTwoRunning) ≤ 1 := by
  refine ⟨by decide, by decide⟩

/-- **C4 (amended).** At most one job has status `Running` at every
point of every operation sequence that respects the executor
discipline: a job is only activated (`set_current_job`, `job.start`, or
`start_next_job` with an empty current slot) when no other job is
`Running`, and an account is only marked `Running` inside a job that is
itself `Running`.  Unrestricted `set_current_job` calls — as performed
by overlapping background executors — violate the invariant. -/
theorem at_most_one_running_of_guarded (ops : List QOp)
    (h : GuardedFrom JobQueue.new ops) :
    ∀ n, runningJobs (applyOps JobQueue.new (ops.take n)) ≤ 1 := by
  intro n
  exact runningJobs_le_one _
    (RunInv_applyOps _ _ RunInv_new (GuardedFrom_take _ _ n h))

/-- Witness for C4's amended theorem: one full executor episode. -/
theorem at_most_one_running_of_guarded_witness :
    runningJobs (applyOps JobQueue.new (traceGuarded.take 7)) ≤ 1 :=
  at_most_one_running_of_guarded traceGuarded
    (by
      simp only [traceGuarded, GuardedFrom, activationOk]
      refine ⟨trivial, ?_, ?_, ?_, trivial, trivial, trivial, trivial⟩ <;> decide) 7

/-! ## Claim C6: `handle_file_containing_symbol` statuses -/

/-- **C6.** `handle_file_containing_symbol`: a body that does not parse
as `{symbol: string}` yields `InvalidArgument` (3); an empty symbol
yields `InvalidArgument` (3); a symbol naming no service, method,
message type or enum type of the descriptor set yields `NotFound`
(5). -/
theorem handle_file_containing_symbol_statuses (rc : ReflectionCodec)
    (fdsBytes body : List Nat) (symbol : String) (fds : FileDescriptorSet) :
    (rc.parseSymbolRequest body = none →
      handle_file_containing_symbol rc fdsBytes body
        = GrpcResponse.mkError .InvalidArgument "invalid request JSON") ∧
    (rc.parseSymbolRequest body = some "" →
      handle_file_containing_symbol rc fdsBytes body
        = GrpcResponse.mkError .InvalidArgument "symbol is required") ∧
    (rc.parseSymbolRequest body = some symbol → ¬ symbol = "" →
      rc.decodeFds fdsBytes = some fds →
      (∀ f ∈ fds.file, symbolInFile f symbol = false) →
      handle_file_containing_symbol rc fdsBytes body
        = GrpcResponse.mkError .NotFound ("symbol not found: " ++ symbol)) ∧
    StatusCode.toCode .InvalidArgument = 3 ∧ StatusCode.toCode .NotFound = 5 := by
  refine ⟨?_, ?_, ?_, rfl, rfl⟩
  · intro h
    unfold handle_file_containing_symbol
    rw [h]
  · intro h
    unfold handle_file_containing_symbol
    rw [h]
    simp
  · intro h hne hd hnotin
    have hfind : find_file_containing_symbol fds symbol = none :=
      List.find?_eq_none.mpr (fun f hf => by simp [hnotin f hf])
    unfold handle_file_containing_symbol
    rw [h]
    simp only [if_neg hne, hd, hfind]

/-- Witness for C6 with a concrete codec and descriptor set. -/
theorem handle_file_containing_symbol_statuses_witness :
    handle_file_containing_symbol witnessReflectionCodec [] [1]
      = GrpcResponse.mkError .InvalidArgument "invalid request JSON" ∧
    handle_file_containing_symbol witnessReflectionCodec [] [2]
      = GrpcResponse.mkError .InvalidArgument "symbol is required" ∧
    handle_file_containing_symbol witnessReflectionCodec [] [3]
      = GrpcResponse.mkError .NotFound ("symbol not found: " ++ "no.Such") :=
  ⟨(handle_file_containing_symbol_statuses witnessReflectionCodec [] [1] "no.Such"
      witnessFds).1 (by decide),
   (handle_file_containing_symbol_statuses witnessReflectionCodec [] [2] "no.Such"
      witnessFds).2.1 (by decide),
   (handle_file_containing_symbol_statuses witnessReflectionCodec [] [3] "no.Such"
      witnessFds).2.2.1 (by decide) (by decide) (by decide) (by decide)⟩

/-! ## Claim C8: credential save/load round trip -/

theorem dropWhile_ends_eq_self (p : Char → Bool) (s : List Char)
    (h : ∀ c, (s.head? = some c ∨ s.getLast? = some c) → p c = false) :
    ((s.dropWhile p).reverse.dropWhile p).reverse = s := by
  cases s with
  | nil => rfl
  | cons c s' =>
    have hc : p c = false := h c (Or.inl rfl)
    rw [List.dropWhile_cons, hc]
    simp only [Bool.false_eq_true, if_false]
    cases hrev : (c :: s').reverse with
    | nil => simp at hrev
    | cons d rest =>
      have hd : (c :: s').getLast? = some d := by
        rw [← List.head?_reverse, hrev]
        rfl
      have hdw : p d = false := h d (Or.inr hd)
      rw [List.dropWhile_cons, hdw]
      simp only [Bool.false_eq_true, if_false]
      rw [← hrev, List.reverse_reverse]

theorem trimChars_eq_self (s : List Char)
    (h : ∀ c, (s.head? = some c ∨ s.getLast? = some c) → isWsChar c = false) :
    trimChars s = s :=
  dropWhile_ends_eq_self isWsChar s h

theorem trimMatchesChar_eq_self (q : Char) (s : List Char)
    (h : ∀ c, (s.head? = some c ∨ s.getLast? = some c) → ¬ c = q) :
    trimMatchesChar q s = s :=
  dropWhile_ends_eq_self (fun c => c = q) s (fun c hc => by simp [h c hc])

theorem normalizeValue_eq_self (v : List Char) (hv : cleanEnvValue v) :
    normalizeValue v = v := by
  obtain ⟨_, _, _, hends⟩ := hv
  unfold normalizeValue
  rw [trimChars_eq_self v (fun c hc => (hends c hc).1),
    trimMatchesChar_eq_self '"' v (fun c hc => (hends c hc).2.1),
    trimMatchesChar_eq_self '\'' v (fun c hc => (hends c hc).2.2)]

theorem stripCRend_eq_self (s : List Char) (h : '\r' ∉ s) : stripCRend s = s := by
  unfold stripCRend
  cases hl : s.getLast? with
  | none => simp
  | some d =>
    have hd : ¬ d = '\r' := by
      intro he
      exact h (he ▸ List.mem_of_mem_getLast? hl)
    simp [hd]

theorem linesAux_append (a : List Char) :
    '\n' ∉ a → ∀ acc rest, linesAux acc (a ++ '\n' :: rest)
      = stripCRend (acc.reverse ++ a) :: linesAux [] rest := by
  induction a with
  | nil =>
    intro _ acc rest
    simp [linesAux]
  | cons c a' ih =>
    intro hn acc rest
    have hc : ¬ c = '\n' := fun h => hn (h ▸ List.mem_cons_self c a')
    have hn' : '\n' ∉ a' := fun h => hn (List.mem_cons_of_mem c h)
    rw [List.cons_append]
    show linesAux acc (c :: (a' ++ '\n' :: rest)) = _
    rw [show linesAux acc (c :: (a' ++ '\n' :: rest))
        = if c = '\n' then stripCRend acc.reverse :: linesAux [] (a' ++ '\n' :: rest)
          else linesAux (c :: acc) (a' ++ '\n' :: rest) from rfl]
    rw [if_neg hc, ih hn' (c :: acc) rest]
    congr 2
    simp

theorem rustLines_cons_line (a rest : List Char) (hn : '\n' ∉ a) (hr : '\r' ∉ a) :
    rustLines (a ++ '\n' :: rest) = a :: rustLines rest := by
  unfold rustLines
  rw [linesAux_append a hn [] rest]
  rw [List.reverse_nil, List.nil_append, stripCRend_eq_self a hr]

theorem splitOnceEq_first (k v : List Char) (hk : '=' ∉ k) :
    splitOnceEq (k ++ '=' :: v) = some (k, v) := by
  induction k with
  | nil => simp [splitOnceEq]
  | cons c k' ih =>
    have hc : ¬ c = '=' := fun h => hk (h ▸ List.mem_cons_self c k')
    have hk' : '=' ∉ k' := fun h => hk (List.mem_cons_of_mem c h)
    rw [List.cons_append]
    show splitOnceEq (c :: (k' ++ '=' :: v)) = _
    rw [show splitOnceEq (c :: (k' ++ '=' :: v))
        = if c = '=' then some ([], k' ++ '=' :: v)
          else match splitOnceEq (k' ++ '=' :: v) with
            | some kv => some (c :: kv.1, kv.2)
            | none => none from rfl]
    rw [if_neg hc, ih hk']

theorem head?_trimChars (s : List Char) (c : Char) (h : s.head? = some c)
    (hc : isWsChar c = false) : (trimChars s).head? = some c := by
  cases s with
  | nil => cases h
  | cons c₀ s' =>
    have hc₀ : c₀ = c := by simpa using h
    subst hc₀
    unfold trimChars
    rw [List.dropWhile_cons, hc]
    simp only [Bool.false_eq_true, if_false]
    set X := (c₀ :: s').reverse.dropWhile isWsChar with hX
    have hXne : X ≠ [] := by
      rw [hX]
      intro hnil
      have := (List.dropWhile_eq_nil_iff).mp hnil c₀ (by simp)
      rw [hc] at this
      cases this
    obtain ⟨pre, hpre⟩ : X <:+ (c₀ :: s').reverse := List.dropWhile_suffix _
    have hlastX : X.getLast? = some c₀ := by
      have h1 : (pre ++ X).getLast? = X.getLast? :=
        List.getLast?_append_of_ne_nil pre hXne
      rw [hpre] at h1
      rw [← h1, List.getLast?_reverse]
      rfl
    rw [List.head?_reverse]
    exact hlastX

theorem envLineStep_eq (st : Option (List Char) × List Char × Option (List Char))
    (k v : List Char) (hv : cleanEnvValue v)
    (hkh : ∃ c, k.head? = some c ∧ isWsChar c = false ∧ ¬ c = '#')
    (hkeq : '=' ∉ k) (hktrim : trimChars k = k) :
    envLineStep st (k ++ '=' :: v) =
      (if k = "P2P_API_KEY".data ∨ k = "API_KEY".data then (some v, st.2.1, st.2.2)
       else if k = "P2P_APP_ID".data ∨ k = "APP_ID".data then (st.1, v, st.2.2)
       else if k = "P2P_REFRESH_TOKEN".data ∨ k = "REFRESH_TOKEN".data then
         (if ¬ v = [] then (st.1, st.2.1, some v) else st)
       else st) := by
  obtain ⟨c, hhead, hcw, hcp⟩ := hkh
  have hkne : k ≠ [] := by
    intro he
    rw [he] at hhead
    cases hhead
  have htrim : trimChars (k ++ '=' :: v) = k ++ '=' :: v := by
    apply trimChars_eq_self
    intro d hd
    rcases hd with hd | hd
    · rw [List.head?_append, hhead] at hd
      have hdc : d = c := by
        have : (some c).or ('=' :: v).head? = some c := rfl
        rw [this] at hd
        simpa [eq_comm] using hd
      rw [hdc]
      exact hcw
    · rw [List.getLast?_append_of_ne_nil k (by simp)] at hd
      cases hvempty : v with
      | nil =>
        rw [hvempty] at hd
        have hde : d = '=' := by simpa [eq_comm] using hd
        rw [hde]
        rfl
      | cons v₀ v' =>
        have hdv : v.getLast? = some d := by
          rw [hvempty]
          rw [hvempty, List.getLast?_cons_cons] at hd
          exact hd
        exact (hv.2.2.2 d (Or.inr hdv)).1
  unfold envLineStep
  rw [htrim]
  rw [if_neg (by simp [hkne])]
  have hhd : (k ++ '=' :: v).head? = some c := by
    rw [List.head?_append, hhead]
    rfl
  rw [if_neg (by rw [hhd]; simp [hcp])]
  rw [splitOnceEq_first k v hkeq]
  dsimp only
  rw [hktrim, normalizeValue_eq_self v hv]

theorem envLineStep_api (st : Option (List Char) × List Char × Option (List Char))
    (v : List Char) (hv : cleanEnvValue v) :
    envLineStep st ("P2P_API_KEY=".data ++ v) = (some v, st.2.1, st.2.2) := by
  have hsplit : "P2P_API_KEY=".data ++ v = "P2P_API_KEY".data ++ '=' :: v := rfl
  rw [hsplit, envLineStep_eq st _ v hv ⟨'P', by decide, by decide, by decide⟩
    (by decide) (by decide)]
  rw [if_pos (Or.inl rfl)]

theorem envLineStep_appid (st : Option (List Char) × List Char × Option (List Char))
    (v : List Char) (hv : cleanEnvValue v) :
    envLineStep st ("P2P_APP_ID=".data ++ v) = (st.1, v, st.2.2) := by
  have hsplit : "P2P_APP_ID=".data ++ v = "P2P_APP_ID".data ++ '=' :: v := rfl
  rw [hsplit, envLineStep_eq st _ v hv ⟨'P', by decide, by decide, by decide⟩
    (by decide) (by decide)]
  rw [if_neg (by decide), if_pos (Or.inl rfl)]

theorem envLineStep_refresh (st : Option (List Char) × List Char × Option (List Char))
    (v : List Char) (hv : cleanEnvValue v) (hne : ¬ v = []) :
    envLineStep st ("P2P_REFRESH_TOKEN=".data ++ v) = (st.1, st.2.1, some v) := by
  have hsplit : "P2P_REFRESH_TOKEN=".data ++ v = "P2P_REFRESH_TOKEN".data ++ '=' :: v := rfl
  rw [hsplit, envLineStep_eq st _ v hv ⟨'P', by decide, by decide, by decide⟩
    (by decide) (by decide)]
  rw [if_neg (by decide), if_neg (by decide), if_pos (Or.inl rfl), if_pos hne]

theorem newline_not_mem_line (k v : List Char) (hk : '\n' ∉ k) (hv : '\n' ∉ v) :
    '\n' ∉ k ++ v := by
  intro h
  rcases List.mem_append.mp h with h | h
  · exact hk h
  · exact hv h

theorem cr_not_mem_line (k v : List Char) (hk : '\r' ∉ k) (hv : '\r' ∉ v) :
    '\r' ∉ k ++ v := by
  intro h
  rcases List.mem_append.mp h with h | h
  · exact hk h
  · exact hv h

theorem parse_env_format_save (c : P2PCredentials)
    (h1 : cleanEnvValue c.api_key) (h2 : cleanEnvValue c.app_id)
    (h3 : ∀ t, c.refresh_token = some t → cleanEnvValue t ∧ ¬ t = []) :
    parse_env_format (saveContent c) = .ok c := by
  obtain ⟨api, app, refresh⟩ := c
  simp only at h1 h2 h3
  cases refresh with
  | none =>
    by_cases happ : app = []
    · have hlines : rustLines (saveContent ⟨api, app, none⟩)
          = ["P2P_API_KEY=".data ++ api] := by
        rw [show saveContent ⟨api, app, none⟩
            = ("P2P_API_KEY=".data ++ api) ++ '\n' :: [] by simp [saveContent, happ]]
        rw [rustLines_cons_line _ _
          (newline_not_mem_line _ _ (by decide) h1.2.1)
          (cr_not_mem_line _ _ (by decide) h1.2.2.1)]
        rfl
      unfold parse_env_format
      rw [hlines]
      simp only [List.foldl_cons, List.foldl_nil]
      rw [envLineStep_api _ api h1]
      rw [happ]
    · have hlines : rustLines (saveContent ⟨api, app, none⟩)
          = ["P2P_API_KEY=".data ++ api, "P2P_APP_ID=".data ++ app] := by
        rw [show saveContent ⟨api, app, none⟩
            = ("P2P_API_KEY=".data ++ api) ++ '\n' ::
              (("P2P_APP_ID=".data ++ app) ++ '\n' :: []) by
          simp [saveContent, happ]]
        rw [rustLines_cons_line _ _
          (newline_not_mem_line _ _ (by decide) h1.2.1)
          (cr_not_mem_line _ _ (by decide) h1.2.2.1)]
        rw [rustLines_cons_line _ _
          (newline_not_mem_line _ _ (by decide) h2.2.1)
          (cr_not_mem_line _ _ (by decide) h2.2.2.1)]
        rfl
      unfold parse_env_format
      rw [hlines]
      simp only [List.foldl_cons, List.foldl_nil]
      rw [envLineStep_api _ api h1, envLineStep_appid _ app h2]
  | some t =>
    obtain ⟨hvt, hnet⟩ := h3 t rfl
    by_cases happ : app = []
    · have hlines : rustLines (saveContent ⟨api, app, some t⟩)
          = ["P2P_API_KEY=".data ++ api, "P2P_REFRESH_TOKEN=".data ++ t] := by
        rw [show saveContent ⟨api, app, some t⟩
            = ("P2P_API_KEY=".data ++ api) ++ '\n' ::
              (("P2P_REFRESH_TOKEN=".data ++ t) ++ '\n' :: []) by
          simp [saveContent, happ]]
        rw [rustLines_cons_line _ _
          (newline_not_mem_line _ _ (by decide) h1.2.1)
          (cr_not_mem_line _ _ (by decide) h1.2.2.1)]
        rw [rustLines_cons_line _ _
          (newline_not_mem_line _ _ (by decide) hvt.2.1)
          (cr_not_mem_line _ _ (by decide) hvt.2.2.1)]
        rfl
      unfold parse_env_format
      rw [hlines]
      simp only [List.foldl_cons, List.foldl_nil]
      rw [envLineStep_api _ api h1, envLineStep_refresh _ t hvt hnet]
      rw [happ]
    · have hlines : rustLines (saveContent ⟨api, app, some t⟩)
          = ["P2P_API_KEY=".data ++ api, "P2P_APP_ID=".data ++ app,
             "P2P_REFRESH_TOKEN=".data ++ t] := by
        rw [show saveContent ⟨api, app, some t⟩
            = ("P2P_API_KEY=".data ++ api) ++ '\n' ::
              (("P2P_APP_ID=".data ++ app) ++ '\n' ::
                (("P2P_REFRESH_TOKEN=".data ++ t) ++ '\n' :: [])) by
          simp [saveContent, happ]]
        rw [rustLines_cons_line _ _
          (newline_not_mem_line _ _ (by decide) h1.2.1)
          (cr_not_mem_line _ _ (by decide) h1.2.2.1)]
        rw [rustLines_cons_line _ _
          (newline_not_mem_line _ _ (by decide) h2.2.1)
          (cr_not_mem_line _ _ (by decide) h2.2.2.1)]
        rw [rustLines_cons_line _ _
          (newline_not_mem_line _ _ (by decide) hvt.2.1)
          (cr_not_mem_line _ _ (by decide) hvt.2.2.1)]
        rfl
      unfold parse_env_format
      rw [hlines]
      simp only [List.foldl_cons, List.foldl_nil]
      rw [envLineStep_api _ api h1, envLineStep_appid _ app h2,
        envLineStep_refresh _ t hvt hnet]

/-- **C8 counterexample.** Credentials with `refresh_token = Some("")`
survive `save` but `load` returns `refresh_token = None`: the fields
are not identical. -/
theorem save_load_counterexample :
    loadContent (fun _ => .error .Parse) (saveContent credsEmptyRefresh)
      = .ok { api_key := "k".data, app_id := [], refresh_token := none } ∧
    credsEmptyRefresh.refresh_token = some [] ∧
    some ([] : List Char) ≠ none := by
  refine ⟨by decide, by decide, by decide⟩

/-- **C8 (amended).** Credentials written by `save` and re-read by
`load` are identical in all three fields, provided each field value is
ASCII, contains no line break, starts and ends with no whitespace or
quote character (so the parser's trimming and quote stripping leave it
unchanged), and the refresh token is not `Some("")`. -/
theorem save_load_roundtrip
    (jsonLoad : List Char → Except CredentialsError P2PCredentials)
    (c : P2PCredentials)
    (h1 : cleanEnvValue c.api_key) (h2 : cleanEnvValue c.app_id)
    (h3 : ∀ t, c.refresh_token = some t → cleanEnvValue t ∧ ¬ t = []) :
    loadContent jsonLoad (saveContent c) = .ok c := by
  have hhead : (saveContent c).head? = some 'P' := by
    unfold saveContent
    rfl
  have htr := head?_trimChars _ 'P' hhead (by decide)
  unfold loadContent
  rw [if_neg (by rw [htr]; decide)]
  exact parse_env_format_save c h1 h2 h3

/-- Witness for C8's amended theorem on concrete clean credentials. -/
theorem save_load_roundtrip_witness :
    loadContent (fun _ => .error .Parse) (saveContent credsClean) = .ok credsClean :=
  save_load_roundtrip (fun _ => .error .Parse) credsClean (by decide) (by decide)
    (by intro t ht; cases ht; exact ⟨by decide, by decide⟩)

end RustRouter
